import Mathlib

/-!
# Verification of the ticket identity and lookup subsystem

Shallow embedding of the ticket-registration backend (an Express/MongoDB
application) into Lean 4, together with theorems settling the specification
claims about it.

Modelling choices, used uniformly below:

* JavaScript values are modelled by the inductive `JsVal` (null, boolean,
  integer number, string, array, object).  Objects are association lists in
  insertion order, as JS objects preserve insertion order; `undefined` is
  modelled by `Option` at the places the code distinguishes it.
* MongoDB collections are lists of documents in insertion order; `findOne`
  returns the first matching document, matching Mongo's natural order for
  un-indexed queries.  A database handle maps a collection name to its list.
* `Date.now()` is an integer timestamp parameter threaded explicitly.
* `Math.random()`-driven choices are threaded as explicit choice functions
  (one `Nat`-indexed supply per call site).
-/

set_option maxHeartbeats 1000000

namespace TicketBackend

/-- JavaScript runtime values, as far as the backend manipulates them.
JSON/JS numbers are modelled as integers: every number the ticket subsystem
produces or compares is integral, and no claim depends on fractional values. -/
inductive JsVal where
  | vNull : JsVal
  | vBool (b : Bool) : JsVal
  | vNum (n : Int) : JsVal
  | vStr (s : String) : JsVal
  | vArr (elems : List JsVal) : JsVal
  | vObj (fields : List (String × JsVal)) : JsVal
deriving Repr

mutual

/-- Decidable equality for `JsVal` (hand-rolled: the nested `List` occurrences
prevent automatic derivation). -/
def JsVal.decEq : (a b : JsVal) → Decidable (a = b)
  | .vNull, .vNull => .isTrue rfl
  | .vBool a, .vBool b =>
      if h : a = b then .isTrue (by rw [h]) else .isFalse (by simp [h])
  | .vNum a, .vNum b =>
      if h : a = b then .isTrue (by rw [h]) else .isFalse (by simp [h])
  | .vStr a, .vStr b =>
      if h : a = b then .isTrue (by rw [h]) else .isFalse (by simp [h])
  | .vArr xs, .vArr ys =>
      match JsVal.decEqList xs ys with
      | .isTrue h => .isTrue (by rw [h])
      | .isFalse h => .isFalse (by simp [h])
  | .vObj xs, .vObj ys =>
      match JsVal.decEqFields xs ys with
      | .isTrue h => .isTrue (by rw [h])
      | .isFalse h => .isFalse (by simp [h])
  | .vNull, .vBool _ => .isFalse (by simp)
  | .vNull, .vNum _ => .isFalse (by simp)
  | .vNull, .vStr _ => .isFalse (by simp)
  | .vNull, .vArr _ => .isFalse (by simp)
  | .vNull, .vObj _ => .isFalse (by simp)
  | .vBool _, .vNull => .isFalse (by simp)
  | .vBool _, .vNum _ => .isFalse (by simp)
  | .vBool _, .vStr _ => .isFalse (by simp)
  | .vBool _, .vArr _ => .isFalse (by simp)
  | .vBool _, .vObj _ => .isFalse (by simp)
  | .vNum _, .vNull => .isFalse (by simp)
  | .vNum _, .vBool _ => .isFalse (by simp)
  | .vNum _, .vStr _ => .isFalse (by simp)
  | .vNum _, .vArr _ => .isFalse (by simp)
  | .vNum _, .vObj _ => .isFalse (by simp)
  | .vStr _, .vNull => .isFalse (by simp)
  | .vStr _, .vBool _ => .isFalse (by simp)
  | .vStr _, .vNum _ => .isFalse (by simp)
  | .vStr _, .vArr _ => .isFalse (by simp)
  | .vStr _, .vObj _ => .isFalse (by simp)
  | .vArr _, .vNull => .isFalse (by simp)
  | .vArr _, .vBool _ => .isFalse (by simp)
  | .vArr _, .vNum _ => .isFalse (by simp)
  | .vArr _, .vStr _ => .isFalse (by simp)
  | .vArr _, .vObj _ => .isFalse (by simp)
  | .vObj _, .vNull => .isFalse (by simp)
  | .vObj _, .vBool _ => .isFalse (by simp)
  | .vObj _, .vNum _ => .isFalse (by simp)
  | .vObj _, .vStr _ => .isFalse (by simp)
  | .vObj _, .vArr _ => .isFalse (by simp)

/-- Decidable equality for lists of `JsVal`. -/
def JsVal.decEqList : (xs ys : List JsVal) → Decidable (xs = ys)
  | [], [] => .isTrue rfl
  | [], _ :: _ => .isFalse (by simp)
  | _ :: _, [] => .isFalse (by simp)
  | x :: xs, y :: ys =>
      match JsVal.decEq x y with
      | .isFalse h => .isFalse (by simp [h])
      | .isTrue h =>
        match JsVal.decEqList xs ys with
        | .isTrue h2 => .isTrue (by rw [h, h2])
        | .isFalse h2 => .isFalse (by simp [h2])

/-- Decidable equality for object field lists. -/
def JsVal.decEqFields : (xs ys : List (String × JsVal)) → Decidable (xs = ys)
  | [], [] => .isTrue rfl
  | [], _ :: _ => .isFalse (by simp)
  | _ :: _, [] => .isFalse (by simp)
  | (k, v) :: xs, (k2, v2) :: ys =>
      if hk : k = k2 then
        match JsVal.decEq v v2 with
        | .isFalse h => .isFalse (by simp [h])
        | .isTrue h =>
          match JsVal.decEqFields xs ys with
          | .isTrue h2 => .isTrue (by rw [hk, h, h2])
          | .isFalse h2 => .isFalse (by simp [h2])
      else .isFalse (by simp [hk])

end

instance : DecidableEq JsVal := JsVal.decEq

/-- A MongoDB document: field names to values, in insertion order. -/
abbrev Doc := List (String × JsVal)

/-- First binding of field `k` (JS property read / Mongo field access). -/
def getField (d : Doc) (k : String) : Option JsVal :=
  (d.find? (fun p => p.1 == k)).map (·.2)

/-- `Object.prototype.hasOwnProperty.call(d, k)`. -/
def hasField (d : Doc) (k : String) : Bool :=
  d.any (fun p => p.1 == k)

/-- JS property assignment `d[k] = v`: overwrite in place, else append. -/
def setField (d : Doc) (k : String) (v : JsVal) : Doc :=
  if hasField d k then
    d.map (fun p => if p.1 == k then (k, v) else p)
  else d ++ [(k, v)]

/-- JS truthiness of a value (`""`, `0`, `false`, `null` are falsy). -/
def jsTruthy : JsVal → Bool
  | .vNull => false
  | .vBool b => b
  | .vNum n => n != 0
  | .vStr s => s ≠ ""
  | .vArr _ => true
  | .vObj _ => true

/-- The whitespace class of JS `\s` / `String.prototype.trim` (core ASCII
members; the rarely-used Unicode members are not exercised by the claims). -/
def isJsWs (c : Char) : Bool :=
  c = ' ' || c = '\t' || c = '\n' || c = '\r' || c = '\x0b' || c = '\x0c'

/-- `String.prototype.trim()` on character lists. -/
def jsTrimChars (cs : List Char) : List Char :=
  ((cs.dropWhile isJsWs).reverse.dropWhile isJsWs).reverse

/-- `String.prototype.trim()`. -/
def jsTrim (s : String) : String :=
  ⟨jsTrimChars s.data⟩

mutual

/-- JS `String(v)` coercion.  Arrays render as their elements joined by `,`
(`Array.prototype.toString`; `null` elements render as `""`), plain objects
as `"[object Object]"`. -/
def jsToString : JsVal → String
  | .vNull => "null"
  | .vBool true => "true"
  | .vBool false => "false"
  | .vNum n => toString n
  | .vStr s => s
  | .vObj _ => "[object Object]"
  | .vArr elems => String.intercalate "," (jsArrElemStrings elems)

/-- Rendering of array elements for `jsToString` (`null` renders as `""`). -/
def jsArrElemStrings : List JsVal → List String
  | [] => []
  | .vNull :: rest => "" :: jsArrElemStrings rest
  | v :: rest => jsToString v :: jsArrElemStrings rest

end

/-! ## Field Normalizer (`safeFieldName`, src/unnamed/part_003 = utils/mongoSchemaSync.js) -/

/-- ASCII `String.prototype.toLowerCase()` on one character.  The claims only
exercise ASCII input, where JS and this definition agree exactly. -/
def jsToLowerChar (c : Char) : Char :=
  if 'A' ≤ c ∧ c ≤ 'Z' then Char.ofNat (c.toNat + 32) else c

/-- The character class `[\s-]` of `safeFieldName`'s first replacement. -/
def isWsOrHyphen (c : Char) : Bool :=
  isJsWs c || c = '-'

/-- Worker for `replace(/[\s-]+/g, '_')`: `inRun` records whether the previous
character belonged to the current whitespace/hyphen run (so the run emits a
single underscore at its first character only). -/
def collapseAux : Bool → List Char → List Char
  | _, [] => []
  | inRun, c :: rest =>
      if isWsOrHyphen c then
        if inRun then collapseAux true rest
        else '_' :: collapseAux true rest
      else c :: collapseAux false rest

/-- `replace(/[\s-]+/g, '_')`: each maximal run of whitespace/hyphens becomes
a single underscore. -/
def collapseWsHyphen (cs : List Char) : List Char :=
  collapseAux false cs

/-- The character class `[a-z0-9_]` kept by `safeFieldName`'s second
replacement (`replace(/[^a-z0-9_]/g, '')`). -/
def isSafeChar (c : Char) : Bool :=
  ('a' ≤ c && c ≤ 'z') || ('0' ≤ c && c ≤ '9') || c = '_'

/-- The test `/^[a-z_]/.test(s)`. -/
def headIsLowerOrUnderscore : List Char → Bool
  | [] => false
  | c :: _ => ('a' ≤ c && c ≤ 'z') || c = '_'

/-- The replacement pipeline of `safeFieldName`: lower-case, collapse
whitespace/hyphen runs to `_`, strip characters outside `[a-z0-9_]`. -/
def safeFieldCore (cs : List Char) : List Char :=
  (collapseWsHyphen (cs.map jsToLowerChar)).filter isSafeChar

/-- The transformation of `safeFieldName` after the trim: the replacement
pipeline, then prepend `f_` when the result does not start with `[a-z_]`. -/
def safeFieldChars (cs : List Char) : List Char :=
  if headIsLowerOrUnderscore (safeFieldCore cs) then safeFieldCore cs
  else 'f' :: '_' :: safeFieldCore cs

/-- `safeFieldName(name)` from utils/mongoSchemaSync.js (all three identical
copies in src/unnamed/part_003, also the inline fallback in
src/routes/awardees.js): `null` for a falsy or whitespace-only name, otherwise
the normalized key. -/
def safeFieldName (name : String) : Option String :=
  if name = "" then none
  else if jsTrimChars name.data = [] then none
  else some ⟨safeFieldChars (jsTrimChars name.data)⟩

/-! ## Code Generators -/

/-- The fixed alphabet `'ABCDEFGHIJKLMNOPQRSTUVWXYZ0123456789'` shared by the
`generateTicketCode` variants in src/utils/saveRegistration.js and
src/routes/tickets-upgrade.js. -/
def ticketCodeAlphabet : List Char :=
  "ABCDEFGHIJKLMNOPQRSTUVWXYZ0123456789".data

/-- `generateTicketCode(length = 6)` from src/utils/saveRegistration.js (both
copies in that file are identical): `length` draws from the 36-character
alphabet behind a fixed `TICK-` marker.  The `Math.random()` draws
`Math.floor(Math.random() * chars.length)` are the explicit supply `r`. -/
def generateTicketCode (r : Nat → Fin 36) (length : Nat) : String :=
  "TICK-" ++ ⟨(List.range length).map (fun i => ticketCodeAlphabet.getD (r i).val 'A')⟩

/-- `generateTicketCode(length = 6, prefix = "TICK-")` from
src/routes/tickets-upgrade.js: same body, configurable marker `pre`. -/
def generateTicketCodeUpgrade (r : Nat → Fin 36) (length : Nat) (pre : String) : String :=
  pre ++ ⟨(List.range length).map (fun i => ticketCodeAlphabet.getD (r i).val 'A')⟩

/-- `generateTicketCode()` from src/routes/awardees.js and
src/routes/speakers.js: `String(Math.floor(10000 + Math.random() * 90000))`,
i.e. a uniformly drawn five-digit decimal string.  The random draw is the
explicit choice `r` with `10000 + r` the produced integer. -/
def generateTicketCodeNumeric (r : Fin 90000) : String :=
  toString (10000 + r.val)

/-! ## JSON (`JSON.parse` + the `stringify` form used by the resolver spec)

The parser below is a recursive-descent JSON parser with a fuel bound on
nesting depth (`JSON.parse` itself recurses on nesting).  Two simplifications
relative to full JSON, neither observable by any claim:
* numbers are parsed as integers (a fraction/exponent makes the top-level
  parse fail instead of producing a float; both outcomes are non-objects, and
  the extraction layer only ever asks whether the parse produced an object);
* `\uXXXX` string escapes are approximated by the identity on the escaped
  character (no claim exercises escapes). -/

/-- Whitespace accepted between JSON tokens. -/
def isJsonWs (c : Char) : Bool :=
  c = ' ' || c = '\t' || c = '\n' || c = '\r'

/-- Interpretation of `\c` escapes inside JSON string literals. -/
def escChar (c : Char) : Char :=
  if c = 'n' then '\n'
  else if c = 't' then '\t'
  else if c = 'r' then '\r'
  else if c = 'b' then '\x08'
  else if c = 'f' then '\x0c'
  else c

/-- Parse the body of a JSON string literal after the opening quote: returns
the decoded content and the remainder after the closing quote. -/
def parseStrBody : List Char → Option (List Char × List Char)
  | [] => none
  | c :: rest =>
      if c = '"' then some ([], rest)
      else if c = '\\' then
        match rest with
        | [] => none
        | e :: rest2 => (parseStrBody rest2).map (fun p => (escChar e :: p.1, p.2))
      else (parseStrBody rest).map (fun p => (c :: p.1, p.2))

/-- ASCII decimal digit test. -/
def isAsciiDigit (c : Char) : Bool :=
  '0' ≤ c && c ≤ '9'

/-- Decimal value of a digit string. -/
def digitsToNat (ds : List Char) : Nat :=
  ds.foldl (fun a c => a * 10 + (c.toNat - 48)) 0

/-- Parse a nonempty run of decimal digits. -/
def parseDigits (cs : List Char) : Option (Nat × List Char) :=
  if cs.takeWhile isAsciiDigit = [] then none
  else some (digitsToNat (cs.takeWhile isAsciiDigit), cs.dropWhile isAsciiDigit)

/-- Parse a JSON number (integral; see the section comment). -/
def parseNumber (cs : List Char) : Option (JsVal × List Char) :=
  match cs with
  | '-' :: rest => (parseDigits rest).map (fun p => (.vNum (-(p.1 : Int)), p.2))
  | _ => (parseDigits cs).map (fun p => (.vNum (p.1 : Int), p.2))

/-- Expect the exact characters `pat` at the head of the input; on success
return the remainder (keyword tails such as `rue` of `true`). -/
def expectChars : List Char → List Char → Option (List Char)
  | [], rest => some rest
  | _ :: _, [] => none
  | c :: cs, r :: rest => if r = c then expectChars cs rest else none

mutual

/-- Parse one JSON value; `fuel` bounds the nesting depth. -/
def parseValue : Nat → List Char → Option (JsVal × List Char)
  | 0, _ => none
  | fuel + 1, cs =>
      match cs.dropWhile isJsonWs with
      | [] => none
      | c :: rest =>
          if c = '{' then
            match rest.dropWhile isJsonWs with
            | [] => parseMembers fuel rest []
            | c2 :: rest2 =>
                if c2 = '}' then some (.vObj [], rest2)
                else parseMembers fuel rest []
          else if c = '[' then
            match rest.dropWhile isJsonWs with
            | [] => parseElems fuel rest []
            | c2 :: rest2 =>
                if c2 = ']' then some (.vArr [], rest2)
                else parseElems fuel rest []
          else if c = '"' then
            (parseStrBody rest).map (fun p => (.vStr ⟨p.1⟩, p.2))
          else if c = 't' then
            (expectChars ['r', 'u', 'e'] rest).map (fun r2 => (.vBool true, r2))
          else if c = 'f' then
            (expectChars ['a', 'l', 's', 'e'] rest).map (fun r2 => (.vBool false, r2))
          else if c = 'n' then
            (expectChars ['u', 'l', 'l'] rest).map (fun r2 => (.vNull, r2))
          else parseNumber (c :: rest)

/-- Parse the members of a JSON object after the opening brace. -/
def parseMembers : Nat → List Char → List (String × JsVal) → Option (JsVal × List Char)
  | 0, _, _ => none
  | fuel + 1, cs, acc =>
      match cs.dropWhile isJsonWs with
      | [] => none
      | c :: rest =>
          if c = '"' then
            match parseStrBody rest with
            | none => none
            | some (key, rest2) =>
                match rest2.dropWhile isJsonWs with
                | [] => none
                | c3 :: rest3 =>
                    if c3 = ':' then
                      match parseValue fuel rest3 with
                      | none => none
                      | some (v, rest4) =>
                          match rest4.dropWhile isJsonWs with
                          | [] => none
                          | c5 :: rest5 =>
                              if c5 = ',' then
                                parseMembers fuel rest5 (acc ++ [(⟨key⟩, v)])
                              else if c5 = '}' then
                                some (.vObj (acc ++ [(⟨key⟩, v)]), rest5)
                              else none
                    else none
          else none

/-- Parse the elements of a JSON array after the opening bracket. -/
def parseElems : Nat → List Char → List JsVal → Option (JsVal × List Char)
  | 0, _, _ => none
  | fuel + 1, cs, acc =>
      match parseValue fuel cs with
      | none => none
      | some (v, rest) =>
          match rest.dropWhile isJsonWs with
          | [] => none
          | c2 :: rest2 =>
              if c2 = ',' then parseElems fuel rest2 (acc ++ [v])
              else if c2 = ']' then some (.vArr (acc ++ [v]), rest2)
              else none

end

/-- `tryParseJsonSafe(s)` from src/routes/tickets-scan.js:
`try { return JSON.parse(s) } catch { return null }`. -/
def tryParseJsonSafe (s : String) : Option JsVal :=
  match parseValue (s.length + 1) s.data with
  | some (v, rest) => if rest.dropWhile isJsonWs = [] then some v else none
  | none => none

/-- `typeof v === 'object' && v` (truthy): JSON-parsed objects and arrays.
(`typeof null` is also `'object'` in JS but `null` is falsy, so the code's
`parsed && typeof parsed === 'object'` guard selects exactly these.) -/
def isObjTruthy : JsVal → Bool
  | .vObj _ => true
  | .vArr _ => true
  | _ => false

/-- The JSON text `{"ticket_code":"X"}` — the `stringify({ticket_code: X})`
form named by the resolver round-trip claim. -/
def wrapTicketJson (X : String) : String :=
  "\x7b\"ticket_code\":\"" ++ X ++ "\"\x7d"

/-! ## Base64 (`Buffer.from(s, 'base64').toString('utf8')` and the encoder) -/

/-- The base64 alphabet, index order. -/
def base64Chars : List Char :=
  "ABCDEFGHIJKLMNOPQRSTUVWXYZabcdefghijklmnopqrstuvwxyz0123456789+/".data

/-- Character of a 6-bit group. -/
def b64Char (n : Nat) : Char :=
  base64Chars.getD n 'A'

/-- 6-bit value of an alphabet character (`none` for padding and foreign
characters, which Node's base64 decoder skips). -/
def b64Val (c : Char) : Option Nat :=
  base64Chars.indexOf? c

/-- Base64-encode a byte list (RFC 4648 with `=` padding). -/
def b64EncodeBytes : List Nat → List Char
  | [] => []
  | [a] => [b64Char (a / 4), b64Char (a % 4 * 16), '=', '=']
  | [a, b] => [b64Char (a / 4), b64Char (a % 4 * 16 + b / 16), b64Char (b % 16 * 4), '=']
  | a :: b :: c :: rest =>
      b64Char (a / 4) :: b64Char (a % 4 * 16 + b / 16) ::
        b64Char (b % 16 * 4 + c / 64) :: b64Char (c % 64) :: b64EncodeBytes rest

/-- Decode a list of 6-bit groups into bytes (final partial group of 2 or 3
values yields 1 or 2 bytes; a dangling single value is dropped, as in Node). -/
def b64DecodeVals : List Nat → List Nat
  | a :: b :: c :: d :: rest =>
      (a * 4 + b / 16) :: (b % 16 * 16 + c / 4) :: (c % 4 * 64 + d) :: b64DecodeVals rest
  | [a, b] => [a * 4 + b / 16]
  | [a, b, c] => [a * 4 + b / 16, b % 16 * 16 + c / 4]
  | _ => []

/-- Node `Buffer.from(chars, 'base64')`: skip foreign characters (including
`=` and whitespace), then decode 6-bit groups. -/
def b64DecodeChars (cs : List Char) : List Nat :=
  b64DecodeVals (cs.filterMap b64Val)

/-- Bytes of a string (ASCII/latin1 exact; the claims only exercise ASCII,
where this coincides with UTF-8). -/
def strToBytes (s : String) : List Nat :=
  s.data.map Char.toNat

/-- String of a byte list (exact for ASCII; Node's UTF-8 decoder replaces
invalid non-ASCII sequences instead, a path no claim takes). -/
def bytesToStr (bs : List Nat) : String :=
  ⟨bs.map Char.ofNat⟩

/-- The base64 encoding of a string, as the scanner-side harness produces it. -/
def b64Encode (s : String) : String :=
  ⟨b64EncodeBytes (strToBytes s)⟩

/-- `Buffer.from(s, 'base64').toString('utf8')`. -/
def b64Decode (s : String) : String :=
  bytesToStr (b64DecodeChars s.data)

/-- The character class `[A-Za-z0-9+/=]` of `looksLikeBase64`. -/
def isB64Char (c : Char) : Bool :=
  ('A' ≤ c && c ≤ 'Z') || ('a' ≤ c && c ≤ 'z') || ('0' ≤ c && c ≤ '9') ||
    c = '+' || c = '/' || c = '='

/-- `s.replace(/\s+/g, "")`. -/
def stripJsWs (s : String) : List Char :=
  s.data.filter (fun c => !(isJsWs c))

/-- `looksLikeBase64(s)` from src/routes/tickets-scan.js:
`/^[A-Za-z0-9+/=]+$/.test(s2) && s2.length % 4 === 0` on the
whitespace-stripped string (the `+` in the anchor requires nonemptiness). -/
def looksLikeBase64 (s : String) : Bool :=
  !(stripJsWs s).isEmpty && (stripJsWs s).all isB64Char &&
    (stripJsWs s).length % 4 = 0

/-! ## Ticket key extraction (src/routes/tickets-scan.js) -/

/-- The token class `[A-Za-z0-9\-_\.]` of the extraction regexes. -/
def isTokenChar (c : Char) : Bool :=
  ('A' ≤ c && c ≤ 'Z') || ('a' ≤ c && c ≤ 'z') || ('0' ≤ c && c ≤ '9') ||
    c = '-' || c = '_' || c = '.'

/-- First match of `/[A-Za-z0-9\-_\.]{3,64}/`: the scan advances one position
at a time; the first position opening a run of at least 3 token characters
yields the greedy (64-capped) run. -/
def firstTokenMatch : List Char → Option String
  | [] => none
  | c :: rest =>
      if 3 ≤ (List.takeWhile isTokenChar (c :: rest)).length then
        some ⟨(List.takeWhile isTokenChar (c :: rest)).take 64⟩
      else firstTokenMatch rest

/-- First match of `/\d{3,12}/`, same scheme with the digit class. -/
def firstDigitRun : List Char → Option String
  | [] => none
  | c :: rest =>
      if 3 ≤ (List.takeWhile isAsciiDigit (c :: rest)).length then
        some ⟨(List.takeWhile isAsciiDigit (c :: rest)).take 12⟩
      else firstDigitRun rest

/-- The preference-ordered alias list of `extractTicketIdFromObject`. -/
def preferKeys : List String :=
  ["ticket_code", "ticketCode", "ticket_id", "ticketId", "ticket", "ticketNo",
    "ticketno", "ticketid", "code", "c", "id", "tk", "t"]

/-- `k.replace(/([A-Z])/g, "_$1").toLowerCase()` (ASCII). -/
def toSnakeCase (s : String) : String :=
  ⟨s.data.foldr
    (fun c acc =>
      if 'A' ≤ c && c ≤ 'Z' then '_' :: jsToLowerChar c :: acc else c :: acc) []⟩

/-- One alias probe of the preference loop: a present, non-null field whose
string form trims nonempty yields that trimmed string. -/
def preferFieldHit (fields : Doc) (k : String) : Option String :=
  match getField fields k with
  | some v =>
      if v = .vNull then none
      else if jsTrim (jsToString v) = "" then none
      else some (jsTrim (jsToString v))
  | none => none

/-- The preference loop: each alias is probed as written and in its
snake-case form before moving on. -/
def extractFromPrefer (fields : Doc) : List String → Option String
  | [] => none
  | k :: ks =>
      match preferFieldHit fields k with
      | some s => some s
      | none =>
          match preferFieldHit fields (toSnakeCase k) with
          | some s => some s
          | none => extractFromPrefer fields ks

mutual

/-- Structural size of a value, used as the deep-scan fuel bound. -/
def jsSize : JsVal → Nat
  | .vArr elems => 1 + jsSizeList elems
  | .vObj fields => 1 + jsSizeFields fields
  | _ => 1

/-- Sum of sizes of array elements. -/
def jsSizeList : List JsVal → Nat
  | [] => 0
  | v :: rest => jsSize v + jsSizeList rest

/-- Sum of sizes of object field values. -/
def jsSizeFields : List (String × JsVal) → Nat
  | [] => 0
  | (_, v) :: rest => jsSize v + jsSizeFields rest

end

/-- The JSON/base64 retry the deep scan applies to a string node whose
trimmed form is empty: `.inl v` means "push the parsed value", `.inr r`
means "return `r`", `none` means "continue".  (A whitespace-only string
neither JSON-parses nor passes `looksLikeBase64`, so this branch of the
source is effectively dead; it is modelled faithfully regardless.) -/
def strRetryB64 (s : String) : Option (JsVal ⊕ String) :=
  if looksLikeBase64 s then
    match tryParseJsonSafe (b64Decode s) with
    | some v2 =>
        if isObjTruthy v2 then some (.inl v2)
        else if b64Decode s ≠ "" && jsTrim (b64Decode s) ≠ "" then
          some (.inr (jsTrim (b64Decode s)))
        else none
    | none =>
        if b64Decode s ≠ "" && jsTrim (b64Decode s) ≠ "" then
          some (.inr (jsTrim (b64Decode s)))
        else none
  else none

/-- JSON-parse retry of the deep scan for string nodes (see `strRetryB64`). -/
def strRetry (s : String) : Option (JsVal ⊕ String) :=
  match tryParseJsonSafe s with
  | some v => if isObjTruthy v then some (.inl v) else strRetryB64 s
  | none => strRetryB64 s

/-- The `while (stack.length)` deep scan of `extractTicketIdFromObject`: the
stack head is the most recently pushed node; arrays push their elements in
index order and objects their non-null field values in key order (so both are
re-visited in reverse), scalars return their trimmed string form when
nonempty.  `fuel` is an explicit bound (the source loop always terminates
because pushed values are strictly smaller; callers pass `jsSize v + 1`). -/
def deepScan : Nat → List JsVal → Option String
  | 0, _ => none
  | _ + 1, [] => none
  | fuel + 1, node :: stack =>
      match node with
      | .vNull => deepScan fuel stack
      | .vBool b =>
          if jsTrim (jsToString (.vBool b)) = "" then deepScan fuel stack
          else some (jsTrim (jsToString (.vBool b)))
      | .vNum n =>
          if jsTrim (jsToString (.vNum n)) = "" then deepScan fuel stack
          else some (jsTrim (jsToString (.vNum n)))
      | .vStr s =>
          if jsTrim s ≠ "" then some (jsTrim s)
          else
            match strRetry s with
            | some (.inl v) => deepScan fuel (v :: stack)
            | some (.inr r) => some r
            | none => deepScan fuel stack
      | .vArr elems => deepScan fuel (elems.reverse ++ stack)
      | .vObj fields =>
          deepScan fuel (((fields.map (·.2)).filter (· ≠ .vNull)).reverse ++ stack)

/-- `extractTicketIdFromObject(obj)` from src/routes/tickets-scan.js:
non-objects are rejected by the `typeof` guard; objects run the
preference-ordered alias loop and then the deep stack scan. -/
def extractTicketIdFromObject (v : JsVal) : Option String :=
  match v with
  | .vObj fields =>
      match extractFromPrefer fields preferKeys with
      | some s => some s
      | none => deepScan (jsSize v + 1) [v]
  | .vArr _ => deepScan (jsSize v + 1) [v]
  | _ => none

/-- Layer 1 of string extraction: JSON-parse, and on a (truthy) object run
the alias extraction; any failure falls through. -/
def jsonExtractLayer (s : String) : Option String :=
  match tryParseJsonSafe s with
  | some v => if isObjTruthy v then extractTicketIdFromObject v else none
  | none => none

/-- The token/digit fallback applied to the base64-decoded string inside
layer 2. -/
def b64DecodedTokenFallback (s : String) : Option String :=
  match firstTokenMatch (b64Decode s).data with
  | some t => some t
  | none => firstDigitRun (b64Decode s).data

/-- Layer 2 of string extraction: when the input looks like base64, decode
it and retry — alias extraction on a parsed object, then the token regex,
then the digit regex, all on the decoded text. -/
def b64ExtractLayer (s : String) : Option String :=
  if looksLikeBase64 s then
    match tryParseJsonSafe (b64Decode s) with
    | some v2 =>
        if isObjTruthy v2 then
          match extractTicketIdFromObject v2 with
          | some f2 => some f2
          | none => b64DecodedTokenFallback s
        else b64DecodedTokenFallback s
    | none => b64DecodedTokenFallback s
  else none

/-- String branch of `extractTicketId`: trim, then the four layers in
order — JSON alias lookup, base64 retry, token regex, digit run. -/
def extractFromString (s0 : String) : Option String :=
  if jsTrim s0 = "" then none
  else
    match jsonExtractLayer (jsTrim s0) with
    | some f => some f
    | none =>
        match b64ExtractLayer (jsTrim s0) with
        | some f => some f
        | none =>
            match firstTokenMatch (jsTrim s0).data with
            | some t => some t
            | none => firstDigitRun (jsTrim s0).data

/-- `extractTicketId(input)` from src/routes/tickets-scan.js.  `none` input
is JS `undefined`; numbers stringify directly; strings run the layered
extraction; objects/arrays run the alias/deep extraction; other values fall
through to `null`. -/
def extractTicketId : Option JsVal → Option String
  | none => none
  | some .vNull => none
  | some (.vNum n) => some (jsToString (.vNum n))
  | some (.vStr s) => extractFromString s
  | some (.vObj fields) => extractTicketIdFromObject (.vObj fields)
  | some (.vArr elems) => extractTicketIdFromObject (.vArr elems)
  | some (.vBool _) => none

/-! ## Ticket lookup (`findTicketDetailed`, src/routes/tickets-scan.js) -/

/-- `CANDIDATE_FIELDS`. -/
def candidateFields : List String :=
  ["ticket_code", "ticketCode", "ticket_id", "ticketId", "ticket", "ticketNo",
    "ticketno", "ticketid", "code", "c", "id", "tk", "t", "ticket_code_num"]

/-- Mongo equality of a stored value against a query constant: the value
itself, or an array element (Mongo matches arrays containing the constant). -/
def mongoEq (v target : JsVal) : Bool :=
  v == target ||
    (match v with
     | .vArr elems => elems.any (· == target)
     | _ => false)

/-- `findOne({f: target})` field test. -/
def mongoFieldEq (d : Doc) (f : String) (target : JsVal) : Bool :=
  match getField d f with
  | some v => mongoEq v target
  | none => false

/-- ASCII lower-casing of a string. -/
def jsToLowerStr (s : String) : String :=
  ⟨s.data.map jsToLowerChar⟩

/-- Case-insensitive string equality (ASCII). -/
def ciEqStr (a b : String) : Bool :=
  jsToLowerStr a == jsToLowerStr b

/-- The anchored case-insensitive regex `^escapeRegex(key)$` applied by Mongo
to field `f`: the escaping makes the pattern literal, so this is
case-insensitive equality on string values (including string elements of
arrays; `$regex` only matches strings). -/
def mongoFieldRegexCi (d : Doc) (f : String) (key : String) : Bool :=
  match getField d f with
  | some (.vStr v) => ciEqStr v key
  | some (.vArr elems) =>
      elems.any (fun e =>
        match e with
        | .vStr v => ciEqStr v key
        | _ => false)
  | _ => false

/-- The `$or` filter of the candidate-fields tier: per candidate field, exact
string equality, the anchored case-insensitive regex, and (for an all-digit
key) exact numeric equality. -/
def candidateOrMatches (keyStr : String) (keyNum : Option Int) (d : Doc) : Bool :=
  candidateFields.any (fun f =>
    mongoFieldEq d f (.vStr keyStr) || mongoFieldRegexCi d f keyStr ||
      (match keyNum with
       | some n => mongoFieldEq d f (.vNum n)
       | none => false))

/-- The `$exists` prefilter of the fallback scan: any candidate field or a
`_rawForm` field present. -/
def hasAnyCandidateOrRaw (d : Doc) : Bool :=
  candidateFields.any (fun f => hasField d f) || hasField d "_rawForm"

/-- The quick per-document field checks of the fallback scan. -/
def quickFieldHit (keyStr : String) (keyNum : Option Int) (d : Doc) : Bool :=
  candidateFields.any (fun f =>
    match getField d f with
    | none => false
    | some v =>
        if v = .vNull then false
        else
          (match keyNum, v with
           | some n, .vNum m => m == n
           | _, _ => false) ||
          jsTrim (jsToString v) == keyStr ||
          (match v with
           | .vStr sv => jsToLowerStr (jsTrim sv) == jsToLowerStr keyStr
           | _ => false))

/-- The deep-inspect check of the fallback scan. -/
def deepInspectHit (keyStr : String) (d : Doc) : Bool :=
  match extractTicketIdFromObject (.vObj d) with
  | some found => jsTrim found == keyStr
  | none => false

/-- The documents the fallback scan iterates: at most `limit` documents
passing the `$exists` prefilter, in natural order. -/
def scanPool (docs : List Doc) (limit : Nat) : List Doc :=
  (docs.filter hasAnyCandidateOrRaw).take limit

/-- The per-collection tiers of `findTicketDetailed`, in source order:
exact `ticket_code` string, exact `ticket_code_num`, exact numeric
`ticket_code`, the candidate-fields `$or`, then the bounded fallback scan
(quick field checks, then deep inspect, per scanned document). -/
def searchCollection (keyStr : String) (keyNum : Option Int) (limit : Nat)
    (docs : List Doc) : Option Doc :=
  match docs.find? (fun d => mongoFieldEq d "ticket_code" (.vStr keyStr)) with
  | some d => some d
  | none =>
      match (match keyNum with
             | some n => docs.find? (fun d => mongoFieldEq d "ticket_code_num" (.vNum n))
             | none => none) with
      | some d => some d
      | none =>
          match (match keyNum with
                 | some n => docs.find? (fun d => mongoFieldEq d "ticket_code" (.vNum n))
                 | none => none) with
          | some d => some d
          | none =>
              match docs.find? (candidateOrMatches keyStr keyNum) with
              | some d => some d
              | none =>
                  (scanPool docs limit).find?
                    (fun d => quickFieldHit keyStr keyNum d || deepInspectHit keyStr d)

/-- A database handle: collection name to stored documents in natural
(insertion) order; `findOne` returns the first match. -/
def DB := String → List Doc

/-- The fixed collection search order of `findTicketDetailed`. -/
def resolverCollections : List String :=
  ["visitors", "exhibitors", "partners", "speakers", "awardees"]

/-- `s` all ASCII digits and nonempty (`/^\d+$/`). -/
def isAllDigits (s : String) : Bool :=
  !s.isEmpty && s.data.all isAsciiDigit

/-- `Number(keyStr)` for an all-digit key (exact; JS doubles lose precision
beyond 2^53, a regime no claim exercises). -/
def strToNat (s : String) : Nat :=
  digitsToNat s.data

/-- The numeric variant of a (trimmed) key: `Number(keyStr)` when the key is
all digits, else absent. -/
def numKeyOf (s : String) : Option Int :=
  if isAllDigits s then some (strToNat s : Int) else none

/-- Walk the collections in order, short-circuiting on the first hit. -/
def searchCollections (db : DB) (keyStr : String) (keyNum : Option Int)
    (limit : Nat) : List String → Option (Doc × String)
  | [] => none
  | collName :: rest =>
      match searchCollection keyStr keyNum limit (db collName) with
      | some d => some (d, collName)
      | none => searchCollections db keyStr keyNum limit rest

/-- `findTicketDetailed(ticketKey)` (the `debug` bookkeeping aside):
trimmed key, numeric variant for all-digit keys, fixed collection order,
`limit` = `TICKET_SCAN_SCAN_LIMIT` (default 1000). -/
def findTicketDetailed (db : DB) (ticketKey : String) (limit : Nat) :
    Option (Doc × String) :=
  searchCollections db (jsTrim ticketKey) (numKeyOf (jsTrim ticketKey))
    limit resolverCollections

/-- The default `TICKET_SCAN_SCAN_LIMIT`. -/
def defaultScanLimit : Nat := 1000

/-- Responses of the `/validate` route relevant to the claims. -/
inductive ValidateResponse where
  | invalidPayload : ValidateResponse
  | notFound : ValidateResponse
  | ok (ticket : Doc) (collection : String) : ValidateResponse
deriving Repr, DecidableEq

/-- The `/validate` route handler on the chosen `incoming` payload (`none` is
JS `undefined`): 400 when no key can be extracted (the `!ticketKey` guard),
404 when the lookup misses, 200 with the document and owning collection
otherwise. -/
def validateRoute (db : DB) (limit : Nat) (incoming : Option JsVal) :
    ValidateResponse :=
  match extractTicketId incoming with
  | none => .invalidPayload
  | some ticketKey =>
      if ticketKey = "" then .invalidPayload
      else
        match findTicketDetailed db ticketKey limit with
        | some (doc, coll) => .ok doc coll
        | none => .notFound

/-- The umbrella match predicate: every way any tier of `searchCollection`
can select a document.  "No other document matches the key" hypotheses are
stated with it. -/
def docMatchesKey (keyStr : String) (keyNum : Option Int) (d : Doc) : Bool :=
  mongoFieldEq d "ticket_code" (.vStr keyStr) ||
    (match keyNum with
     | some n =>
         mongoFieldEq d "ticket_code_num" (.vNum n) ||
           mongoFieldEq d "ticket_code" (.vNum n)
     | none => false) ||
    candidateOrMatches keyStr keyNum d ||
    quickFieldHit keyStr keyNum d || deepInspectHit keyStr d

/-! ## Registration store (`saveRegistration`, src/utils/saveRegistration.js,
second module = utils/registrations.js, lines 304–422)

`Date.now()` is the integer parameter `t` (stored as `vNum`), the
`generateTicketCode()` draws are the supply `gen` indexed by call order, and
document ids are allocated from the database's `nextId` counter. -/

/-- `undefined`-tolerant truthiness (a missing field is falsy). -/
def jsTruthyOpt : Option JsVal → Bool
  | some v => jsTruthy v
  | none => false

/-- A MongoDB database with an id allocator for `insertOne`. -/
structure MDb where
  colls : String → List Doc
  nextId : Nat

/-- Documents of a collection. -/
def dbGet (db : MDb) (name : String) : List Doc :=
  db.colls name

/-- Replace the documents of a collection. -/
def dbSet (db : MDb) (name : String) (docs : List Doc) : MDb :=
  { db with colls := fun n => if n = name then docs else db.colls n }

/-- Replace the first document satisfying `p` (Mongo `updateOne` /
`findOneAndUpdate` touch the first natural-order match). -/
def updateFirst (p : Doc → Bool) (f : Doc → Doc) : List Doc → List Doc
  | [] => []
  | d :: rest => if p d then f d :: rest else d :: updateFirst p f rest

/-- `$set`: apply the update fields in order. -/
def applySet (d : Doc) (upd : Doc) : Doc :=
  upd.foldl (fun acc p => setField acc p.1 p.2) d

/-- JS `delete obj[k]`. -/
def removeField (d : Doc) (k : String) : Doc :=
  d.filter (fun p => p.1 != k)

/-- Worker for `replace(/_+/g, '_')`. -/
def collapseUnderscoreAux : Bool → List Char → List Char
  | _, [] => []
  | inRun, c :: rest =>
      if c = '_' then
        if inRun then collapseUnderscoreAux true rest
        else '_' :: collapseUnderscoreAux true rest
      else c :: collapseUnderscoreAux false rest

/-- Characters kept by `normalizeCollectionName` (`[^a-z0-9_\-]` → `_`). -/
def colNameReplaceChar (c : Char) : Char :=
  if ('a' ≤ c && c ≤ 'z') || ('0' ≤ c && c ≤ '9') || c = '_' || c = '-' then c
  else '_'

/-- `s.endsWith('s')`. -/
def endsWithS (cs : List Char) : Bool :=
  match cs.getLast? with
  | some 's' => true
  | _ => false

/-- Append `'s'` unless already plural. -/
def pluralize (cs : List Char) : List Char :=
  if endsWithS cs then cs else cs ++ ['s']

/-- `normalizeCollectionName(name)`. -/
def normalizeCollectionName (name : String) : Option String :=
  if name = "" then none
  else some ⟨pluralize (collapseUnderscoreAux false
    ((jsToLowerStr (jsTrim name)).data.map colNameReplaceChar))⟩

/-- The known singular roles of `mapTargetCollection`. -/
def knownRoles : List String :=
  ["visitor", "exhibitor", "partner", "speaker", "awardee"]

/-- Strip a trailing `'s'` when present. -/
def singularOf (raw : String) : String :=
  if endsWithS raw.data then ⟨raw.data.dropLast⟩ else raw

/-- `mapTargetCollection(collectionName)`: target collection and role. -/
def mapTargetCollection (collectionName : String) : String × Option String :=
  if collectionName = "" then ("visitors", some "visitor")
  else if jsToLowerStr (jsTrim collectionName) = "" then ("visitors", some "visitor")
  else if knownRoles.contains (singularOf (jsToLowerStr (jsTrim collectionName))) then
    (singularOf (jsToLowerStr (jsTrim collectionName)) ++ "s",
      some (singularOf (jsToLowerStr (jsTrim collectionName))))
  else
    (match normalizeCollectionName (jsToLowerStr (jsTrim collectionName)) with
     | some tgt => tgt
     | none => jsToLowerStr (jsTrim collectionName), none)

/-- Whitelist admission (`none` = no allow-list supplied). -/
def applyWhitelist (w : Option (List String)) (safe : String) : Bool :=
  match w with
  | none => true
  | some ws => ws.contains safe

/-- The first mapping loop of `saveRegistration`: normalize each form key,
skip `_rawForm` and un-normalizable keys, apply the allow-list. -/
def mapFormLoop (w : Option (List String)) : Doc → Doc → Doc
  | [], acc => acc
  | (k, v) :: rest, acc =>
      if k = "_rawForm" then mapFormLoop w rest acc
      else
        match safeFieldName k with
        | none => mapFormLoop w rest acc
        | some safe =>
            if applyWhitelist w safe then mapFormLoop w rest (setField acc safe v)
            else mapFormLoop w rest acc

/-- The nested `_rawForm` merge loop: already-mapped keys win. -/
def mergeRawFormLoop (w : Option (List String)) : Doc → Doc → Doc
  | [], acc => acc
  | (k, v) :: rest, acc =>
      match safeFieldName k with
      | none => mergeRawFormLoop w rest acc
      | some safe =>
          if hasField acc safe then mergeRawFormLoop w rest acc
          else if applyWhitelist w safe then mergeRawFormLoop w rest (setField acc safe v)
          else mergeRawFormLoop w rest acc

/-- The mapped document of a form (`mapped` in the source). -/
def mappedOf (w : Option (List String)) (form : Doc) : Doc :=
  match getField form "_rawForm" with
  | some (.vObj rawFields) => mergeRawFormLoop w rawFields (mapFormLoop w form [])
  | _ => mapFormLoop w form []

/-- `{ ...mapped, _rawForm: raw, updatedAt: now, createdAt: now }` plus the
role marker. -/
def buildBaseDoc (t : Int) (role : Option String) (form : Doc)
    (w : Option (List String)) : Doc :=
  match role with
  | some r =>
      setField (setField (setField (setField (mappedOf w form) "_rawForm" (.vObj form))
        "updatedAt" (.vNum t)) "createdAt" (.vNum t)) "role" (.vStr r)
  | none =>
      setField (setField (setField (mappedOf w form) "_rawForm" (.vObj form))
        "updatedAt" (.vNum t)) "createdAt" (.vNum t)

/-- The email candidate keys probed for normalization. -/
def emailCandidates : List String :=
  ["email", "email_address", "emailAddress", "contactEmail"]

/-- The email-normalization loop: the first truthy string candidate is
trimmed/lower-cased and written back to `email`. -/
def normEmailLoop (d : Doc) : List String → Option String × Doc
  | [] => (none, d)
  | k :: ks =>
      match getField d k with
      | some (.vStr s) =>
          if s ≠ "" then
            (some (jsToLowerStr (jsTrim s)),
              setField d "email" (.vStr (jsToLowerStr (jsTrim s))))
          else normEmailLoop d ks
      | _ => normEmailLoop d ks

/-- Does any document of the collection hold this `ticket_code` (the unique
sparse index that makes a colliding insert fail with `E11000`)? -/
def collectionHasTicketCode (docs : List Doc) (code : JsVal) : Bool :=
  docs.any (fun d => getField d "ticket_code" == some code)

/-- The result shape `{ insertedId, doc, existed }`. -/
structure SaveResult where
  insertedId : Option String
  doc : Doc
  existed : Bool
deriving Repr, DecidableEq

/-- `String(finalDoc._id)` when present. -/
def idStringOf (d : Doc) : Option String :=
  (getField d "_id").map jsToString

/-- `finalDoc.createdAt && finalDoc.createdAt < now`. -/
def existedBefore (d : Doc) (t : Int) : Bool :=
  match getField d "createdAt" with
  | some (.vNum c) => jsTruthy (.vNum c) && c < t
  | _ => false

/-- Ensure `setOnInsertDoc.ticket_code` is truthy, drawing `gen genIdx` when
missing; returns the document and the next unused generator index. -/
def ensureCode (gen : Nat → String) (genIdx : Nat) (sois : Doc) : Doc × Nat :=
  if jsTruthyOpt (getField sois "ticket_code") then (sois, genIdx)
  else (setField sois "ticket_code" (.vStr (gen genIdx)), genIdx + 1)

/-- The upsert-by-email attempt loop of `saveRegistration` (maxAttempts = 6):
`findOneAndUpdate({email}, {$setOnInsert: sois, $set: {updatedAt: now}},
{upsert: true, returnDocument: 'after'})`.  The server rejects the update
command whenever `sois` itself carries `updatedAt`: `$setOnInsert` and
`$set` then target the same path, MongoDB's `ConflictingUpdateOperators`
(code 40) — and the catch recovers only from the `E11000` duplicate-key
code, so the rejection propagates out of the loop.  On a conflict-free
document the upsert proceeds, regenerating the ticket code and retrying on
an `E11000` ticket-code collision. -/
def saveUpsertLoop (gen : Nat → String) (t : Int) (e : String) (target : String) :
    Nat → Nat → Doc → MDb → Except String (SaveResult × MDb)
  | _, 0, _, _ => .error "Failed to upsert registration after multiple attempts"
  | genIdx, remaining + 1, sois, db =>
      match ensureCode gen genIdx sois with
      | (sois2, genIdx2) =>
          if hasField sois2 "updatedAt" then
            .error "ConflictingUpdateOperators: updatedAt in both $setOnInsert and $set"
          else
            match (dbGet db target).find? (fun d => mongoFieldEq d "email" (.vStr e)) with
            | some d =>
                (fun updated =>
                  .ok ({ insertedId := idStringOf updated, doc := updated,
                         existed := existedBefore updated t }, -- createdAt untouched
                    dbSet db target (updateFirst
                      (fun d0 => mongoFieldEq d0 "email" (.vStr e))
                      (fun d0 => setField d0 "updatedAt" (.vNum t)) (dbGet db target))))
                  (setField d "updatedAt" (.vNum t))
            | none =>
                if collectionHasTicketCode (dbGet db target)
                    ((getField sois2 "ticket_code").getD .vNull) then
                  -- duplicate key: regenerate and retry (the final-attempt
                  -- `findOne({email})` re-check cannot match here, since the
                  -- upsert just found no email match, so exhaustion errors out)
                  saveUpsertLoop gen t e target (genIdx2 + 1) remaining
                    (setField sois2 "ticket_code" (.vStr (gen genIdx2))) db
                else
                  (fun inserted =>
                    .ok ({ insertedId := idStringOf inserted, doc := inserted,
                           existed := existedBefore inserted t },
                      { dbSet db target (dbGet db target ++ [inserted]) with
                          nextId := db.nextId + 1 }))
                    (setField (setField sois2 "updatedAt" (.vNum t)) "_id"
                      (.vNum db.nextId))

/-- The no-email insert attempt loop of `saveRegistration` (maxAttempts = 6). -/
def saveInsertLoop (gen : Nat → String) (t : Int) (target : String) :
    Nat → Nat → Doc → MDb → Except String (SaveResult × MDb)
  | _, 0, _, _ => .error "Failed to save registration after attempts"
  | genIdx, remaining + 1, baseDoc, db =>
      match ensureCode gen genIdx baseDoc with
      | (doc2, genIdx2) =>
          if collectionHasTicketCode (dbGet db target)
              ((getField doc2 "ticket_code").getD .vNull) then
            saveInsertLoop gen t target (genIdx2 + 1) remaining
              (setField doc2 "ticket_code" (.vStr (gen genIdx2))) db
          else
            (fun inserted =>
              .ok ({ insertedId := idStringOf inserted, doc := inserted,
                     existed := false },
                { dbSet db target (dbGet db target ++ [inserted]) with
                    nextId := db.nextId + 1 }))
              (setField doc2 "_id" (.vNum db.nextId))

/-- Core of `saveRegistration` after the target/role mapping. -/
def saveRegistrationCore (gen : Nat → String) (t : Int) (db : MDb)
    (target : String) (role : Option String) (form : Doc)
    (w : Option (List String)) : Except String (SaveResult × MDb) :=
  match normEmailLoop (buildBaseDoc t role form w) emailCandidates with
  | (some e, baseDoc) => saveUpsertLoop gen t e target 1 6 baseDoc db
  | (none, baseDoc) => saveInsertLoop gen t target 1 6 baseDoc db

/-- `saveRegistration(collectionName, form, options)` (utils/registrations.js
variant): map the requested collection to its role collection, normalize the
form through the Field Normalizer with the optional admin allow-list, then
upsert-by-email or plain-insert with ticket-code collision retry. -/
def saveRegistration (gen : Nat → String) (t : Int) (db : MDb)
    (collectionName : String) (form : Doc) (allowedFields : Option (List String)) :
    Except String (SaveResult × MDb) :=
  if collectionName = "" then .error "collectionName required"
  else
    saveRegistrationCore gen t db (mapTargetCollection collectionName).1
      (mapTargetCollection collectionName).2 form
      (allowedFields.map (fun names => names.filterMap safeFieldName))

/-! ## Confirm handlers (src/routes/speakers.js `POST /:id/confirm`,
src/routes/awardees.js `POST /:id/confirm`)

The entity id is passed as the already-constructed Mongo `_id` value `oid`
(the route's `new ObjectId(id)`); invalid-id rejection happens before
anything modelled here. -/

/-- Responses of the confirm routes relevant to the claims: `okUpdated`
carries the stored document afterwards, with `noChanges` for the
`'No changes applied (ticket_code protected)'` early return. -/
inductive ConfirmResponse where
  | notFoundResp : ConfirmResponse
  | okUpdated (updated : Doc) (noChanges : Bool) : ConfirmResponse
deriving Repr, DecidableEq

/-- The whitelist of the speakers confirm route. -/
def speakersConfirmWhitelist : List String :=
  ["ticket_code", "ticket_category", "txId", "email", "name", "company",
    "mobile", "designation", "slots", "other_details"]

/-- Whitelist filtering loop: `for k of Object.keys(payload)` keeping
whitelisted keys. -/
def filterWhitelistLoop (wl : List String) : Doc → Doc → Doc
  | [], acc => acc
  | (k, v) :: rest, acc =>
      if wl.contains k then filterWhitelistLoop wl rest (setField acc k v)
      else filterWhitelistLoop wl rest acc

/-- The defensive `ticket_code` handling shared verbatim by the speakers and
awardees confirm routes: an empty incoming code is dropped; a nonempty
incoming code differing from a nonempty existing code is dropped unless
`force`. -/
def protectTicketCode (existing : Doc) (force : Bool) (updateData : Doc) : Doc :=
  if hasField updateData "ticket_code" then
    if (match getField updateData "ticket_code" with
        | some v => if jsTruthy v then jsTrim (jsToString v) else ""
        | none => "") = "" then
      removeField updateData "ticket_code"
    else if (match getField existing "ticket_code" with
             | some v => if jsTruthy v then jsTrim (jsToString v) else ""
             | none => "") ≠ "" ∧
        ¬ force ∧
        (match getField updateData "ticket_code" with
         | some v => if jsTruthy v then jsTrim (jsToString v) else ""
         | none => "") ≠
          (match getField existing "ticket_code" with
           | some v => if jsTruthy v then jsTrim (jsToString v) else ""
           | none => "") then
      removeField updateData "ticket_code"
    else updateData
  else updateData

/-- `slots` normalization of the speakers confirm route: a string value is
JSON-parsed when possible. -/
def normalizeSlots (updateData : Doc) : Doc :=
  match getField updateData "slots" with
  | some (.vStr s) =>
      match tryParseJsonSafe s with
      | some v => setField updateData "slots" v
      | none => updateData
  | _ => updateData

/-- Shared tail of both confirm routes: empty update → no-changes response;
otherwise stamp `updated_at`, `$set` onto the first `_id` match, and return
the stored document. -/
def confirmApply (db : MDb) (collName : String) (t : Int) (oid : JsVal)
    (existing : Doc) (updateData : Doc) : ConfirmResponse × MDb :=
  if updateData = [] then (.okUpdated existing true, db)
  else
    (fun finalUpdate =>
      (fun newDocs =>
        ((match newDocs.find? (fun d => getField d "_id" == some oid) with
          | some after => .okUpdated after false
          | none => .notFoundResp),
          dbSet db collName newDocs))
        (updateFirst (fun d => getField d "_id" == some oid)
          (fun d => applySet d finalUpdate) (dbGet db collName)))
      (setField updateData "updated_at" (.vNum t))

/-- `POST /api/speakers/:id/confirm`. -/
def speakersConfirm (db : MDb) (t : Int) (oid : JsVal) (payload : Doc) :
    ConfirmResponse × MDb :=
  match (dbGet db "speakers").find? (fun d => getField d "_id" == some oid) with
  | none => (.notFoundResp, db)
  | some existing =>
      confirmApply db "speakers" t oid existing
        (normalizeSlots
          (protectTicketCode existing (jsTruthyOpt (getField payload "force"))
            (filterWhitelistLoop speakersConfirmWhitelist
              (removeField payload "force") [])))

/-- The base whitelist of the awardees confirm route. -/
def awardeesBaseWhitelist : List String :=
  ["ticket_code", "ticket_category", "txId", "email", "name", "organization",
    "mobile", "designation", "awardType", "awardOther", "bio"]

/-- The awardees update-data loop: non-whitelisted keys are admitted through
their normalized form when that is whitelisted; whitelisted keys that are
admin-configured original names are stored under their normalized form. -/
def awardeesFilterLoop (wl originalNames : List String) : Doc → Doc → Doc
  | [], acc => acc
  | (k, v) :: rest, acc =>
      if ¬ wl.contains k then
        match safeFieldName k with
        | some sk =>
            if wl.contains sk then awardeesFilterLoop wl originalNames rest (setField acc sk v)
            else awardeesFilterLoop wl originalNames rest acc
        | none => awardeesFilterLoop wl originalNames rest acc
      else if originalNames.contains k then
        awardeesFilterLoop wl originalNames rest
          (setField acc (match safeFieldName k with
                         | some sk => sk
                         | none => k) v)
      else awardeesFilterLoop wl originalNames rest (setField acc k v)

/-- `POST /api/awardees/:id/confirm`; `adminNames` are the admin-configured
field names loaded by `loadAdminFields` (their normalized forms join the
whitelist, as in the source). -/
def awardeesConfirm (db : MDb) (t : Int) (oid : JsVal) (payload : Doc)
    (adminNames : List String) : ConfirmResponse × MDb :=
  match (dbGet db "awardees").find? (fun d => getField d "_id" == some oid) with
  | none => (.notFoundResp, db)
  | some existing =>
      confirmApply db "awardees" t oid existing
        (protectTicketCode existing (jsTruthyOpt (getField payload "force"))
          (awardeesFilterLoop
            (awardeesBaseWhitelist ++ adminNames ++ adminNames.filterMap safeFieldName)
            adminNames (removeField payload "force") []))

/-! ## Upgrade route (src/routes/tickets-upgrade.js `POST /`)

The external payment collaborator's outcome is the `paymentResult` oracle
(`some url` = a created order with that checkout URL, `none` = failure);
mail sending is recorded as an event, never affecting control flow. -/

/-- `ALLOWED_ENTITIES`. -/
def allowedEntities : List String :=
  ["speakers", "awardees", "exhibitors", "partners", "visitors"]

/-- Responses of the upgrade route. -/
inductive UpgradeResponse where
  | badRequest (error : String) : UpgradeResponse
  | paymentFailed : UpgradeResponse
  | checkout (url : String) : UpgradeResponse
  | upgraded (entityType entityId newCategory : String)
      (ticketCode : Option String) : UpgradeResponse
deriving Repr, DecidableEq

/-- Outward effects of the upgrade route. -/
inductive UpgradeEvent where
  | paymentCall (amount : Int) (description : String) (referenceId : String) : UpgradeEvent
  | emailSent (recipient : String) : UpgradeEvent
deriving Repr, DecidableEq

/-- `entity_type.replace(/s$/, "")`. -/
def dropTrailingS (s : String) : String :=
  if endsWithS s.data then ⟨s.data.dropLast⟩ else s

/-- `entityRow && (entityRow.ticket_code || entityRow.code) ? String(...) : null`. -/
def entityRowCode (row : Option Doc) : Option String :=
  match row with
  | some d =>
      if jsTruthyOpt (getField d "ticket_code") then
        (getField d "ticket_code").map jsToString
      else if jsTruthyOpt (getField d "code") then
        (getField d "code").map jsToString
      else none
  | none => none

/-- `(entityRow && (entityRow.name || entityRow.fullName || entityRow.company)) || ""`. -/
def entityRowName (row : Option Doc) : JsVal :=
  match row with
  | some d =>
      if jsTruthyOpt (getField d "name") then (getField d "name").getD (.vStr "")
      else if jsTruthyOpt (getField d "fullName") then (getField d "fullName").getD (.vStr "")
      else if jsTruthyOpt (getField d "company") then (getField d "company").getD (.vStr "")
      else .vStr ""
  | none => .vStr ""

/-- The entity-row part of the `emailToUse` fallback chain. -/
def emailToUseFallback (row : Option Doc) : String :=
  match row with
  | some d =>
      match getField d "email" with
      | some (.vStr s) =>
          if s ≠ "" then s
          else match getField d "contactEmail" with
               | some (.vStr s2) => if s2 ≠ "" then s2 else ""
               | _ => ""
      | _ =>
          match getField d "contactEmail" with
          | some (.vStr s2) => if s2 ≠ "" then s2 else ""
          | _ => ""
  | none => ""

/-- `(email && String(email).trim()) || entityRow.email || entityRow.contactEmail || ""`
(string-typed fields, as the routes store them). -/
def emailToUseOf (email : Option String) (row : Option Doc) : String :=
  match email with
  | some e =>
      if e ≠ "" ∧ jsTrim e ≠ "" then jsTrim e
      else emailToUseFallback row
  | none => emailToUseFallback row

/-- The `$set` document of the tickets-collection upsert. -/
def upgradeTicketSetFields (t : Int) (entityType entityId newCategory : String)
    (name : JsVal) (emailToUse : String) (row : Option Doc) : Doc :=
  [("entity_type", .vStr (dropTrailingS entityType)),
   ("entity_id", .vStr entityId),
   ("name", name),
   ("email", if emailToUse = "" then .vNull else .vStr emailToUse),
   ("company", match row with
               | some d => (getField d "company").getD .vNull
               | none => .vNull),
   ("category", .vStr newCategory),
   ("meta", .vObj [("upgradedFrom", .vStr "self-service"), ("upgradedAt", .vNum t)]),
   ("updatedAt", .vNum t)]

/-- The immediate (no-payment) branch of the upgrade route, after validation:
entity lookup, tickets-collection upsert keyed by ticket code, best-effort
entity `$set`, best-effort confirmation email.  (The source's defensive
retry loop for a `null` upsert result is unreachable here: the modelled
`findOneAndUpdate` always returns the resulting document.) -/
def upgradeImmediate (db : MDb) (t : Int) (code : String)
    (entityType entityId newCategory : String) (email : Option String) :
    UpgradeResponse × MDb × List UpgradeEvent :=
  match (dbGet db entityType).find? (fun d => getField d "_id" == some (.vStr entityId)) with
  | entityRow =>
      (fun emailToUse setFields =>
        (fun upserted =>
          (fun codeFinal db2 =>
            (.upgraded entityType entityId newCategory
                (if codeFinal = "" then none else some codeFinal),
              dbSet db2 entityType
                (updateFirst (fun d => getField d "_id" == some (.vStr entityId))
                  (fun d => applySet d
                    [("ticket_category", .vStr newCategory),
                     ("upgradedAt", .vNum t),
                     ("ticket_code", .vStr codeFinal)])
                  (dbGet db2 entityType)),
              if emailToUse = "" then [] else [.emailSent emailToUse]))
            ((getField upserted.1 "ticket_code").elim code jsToString) upserted.2)
          (match (dbGet db "tickets").find?
              (fun d => mongoFieldEq d "ticket_code" (.vStr code)) with
           | some tdoc =>
               (applySet tdoc setFields,
                 dbSet db "tickets"
                   (updateFirst (fun d => mongoFieldEq d "ticket_code" (.vStr code))
                     (fun d => applySet d setFields) (dbGet db "tickets")))
           | none =>
               (fun newDoc =>
                 (newDoc,
                   { dbSet db "tickets" (dbGet db "tickets" ++ [newDoc]) with
                       nextId := db.nextId + 1 }))
                 (setField (setField (applySet
                     [("ticket_code", .vStr code), ("createdAt", .vNum t)] setFields)
                   "ticket_code" (.vStr code)) "_id" (.vNum db.nextId))))
        (emailToUseOf email entityRow)
        (upgradeTicketSetFields t entityType entityId newCategory
          (entityRowName entityRow) (emailToUseOf email entityRow) entityRow)

/-- `POST /api/tickets/upgrade`: validation, then either the payment
delegation (no local writes) or the immediate upgrade. -/
def upgradeRoute (db : MDb) (t : Int) (gen : Nat → String)
    (paymentResult : Option String) (entityType entityId newCategory : String)
    (amount : Int) (email : Option String) :
    UpgradeResponse × MDb × List UpgradeEvent :=
  if entityType = "" ∨ entityId = "" ∨ newCategory = "" then
    (.badRequest "entity_type, entity_id and new_category are required", db, [])
  else if ¬ allowedEntities.contains entityType then
    (.badRequest "entity_type not allowed", db, [])
  else if 0 < amount then
    match paymentResult with
    | some url =>
        (.checkout url, db,
          [.paymentCall amount ("Ticket Upgrade - " ++ newCategory) entityId])
    | none =>
        (.paymentFailed, db,
          [.paymentCall amount ("Ticket Upgrade - " ++ newCategory) entityId])
  else
    upgradeImmediate db t
      (match entityRowCode ((dbGet db entityType).find?
          (fun d => getField d "_id" == some (.vStr entityId))) with
       | some c => c
       | none => gen 1)
      entityType entityId newCategory email

/-! ## Concrete databases used by witnesses and counterexamples -/

/-- A visitor record whose ticket code happens to be well-formed base64. -/
def cexB64Doc : Doc :=
  [("_id", .vNum 1), ("ticket_code", .vStr "MTIzNDU2")]

/-- Database holding only `cexB64Doc`. -/
def cexB64Db : DB :=
  fun n => if n = "visitors" then [cexB64Doc] else []

/-- A visitor record with a generator-shaped ticket code. -/
def witRoundTripDoc : Doc :=
  [("_id", .vNum 7), ("ticket_code", .vStr "TICK-AB12CD")]

/-- Database holding only `witRoundTripDoc`. -/
def witRoundTripDb : DB :=
  fun n => if n = "visitors" then [witRoundTripDoc] else []

/-- An exhibitor record matching `"TICK-ABC"` only case-insensitively. -/
def witTierDocCi : Doc :=
  [("_id", .vNum 1), ("ticket_code", .vStr "tick-abc")]

/-- A speaker record matching `"TICK-ABC"` exactly. -/
def witTierDocExact : Doc :=
  [("_id", .vNum 2), ("ticket_code", .vStr "TICK-ABC")]

/-- Database where an earlier collection holds only the case-insensitive
match and a later collection the exact match. -/
def witTierDb : DB :=
  fun n =>
    if n = "exhibitors" then [witTierDocCi]
    else if n = "speakers" then [witTierDocExact]
    else []

/-- A visitor record unrelated to `"NOT-A-REAL-CODE-000"`. -/
def witNotFoundDoc : Doc :=
  [("_id", .vNum 3), ("ticket_code", .vStr "TICK-REAL01")]

/-- Database holding only `witNotFoundDoc`. -/
def witNotFoundDb : DB :=
  fun n => if n = "visitors" then [witNotFoundDoc] else []

/-- A deterministic generator supply for registration witnesses. -/
def witGen : Nat → String :=
  fun n => "CODE-" ++ toString n

/-- An empty registration store with id allocation starting at 1. -/
def witSaveDb : MDb :=
  { colls := fun _ => [], nextId := 1 }

/-- A registration form with a mixed-case email. -/
def witSaveForm : Doc :=
  [("email", .vStr "Ana@Example.COM"), ("name", .vStr "Ana")]

/-- `x ? String(x).trim() : ''` on a document field — the `incomingStr` /
`currentStr` expressions of the confirm routes' ticket-code guard. -/
def codeStrOf (d : Doc) (k : String) : String :=
  match getField d k with
  | some v => if jsTruthy v then jsTrim (jsToString v) else ""
  | none => ""

/-- A speaker record with an established ticket code. -/
def cexProtectDoc : Doc :=
  [("_id", .vNum 1), ("ticket_code", .vStr "TICK-A")]

/-- Store holding only `cexProtectDoc` under `speakers`. -/
def cexProtectDb : MDb :=
  { colls := fun n => if n = "speakers" then [cexProtectDoc] else [], nextId := 2 }

/-- A speaker entity for the upgrade-route witnesses. -/
def witUpgradeDoc : Doc :=
  [("_id", .vStr "42"), ("name", .vStr "Sam"), ("email", .vStr "sam@x.com"),
    ("ticket_code", .vStr "TICK-S1")]

/-- Store holding only `witUpgradeDoc` under `speakers`. -/
def witUpgradeDb : MDb :=
  { colls := fun n => if n = "speakers" then [witUpgradeDoc] else [], nextId := 5 }

end TicketBackend

namespace TicketBackend

/-! # Theorems -/

/-! ## Field normalizer lemmas (claim C8) -/

theorem jsToLowerChar_eq_self_of_safe {c : Char} (h : isSafeChar c = true) :
    jsToLowerChar c = c := by
  unfold jsToLowerChar
  rw [if_neg]
  rintro ⟨h1, h2⟩
  simp only [isSafeChar, Bool.or_eq_true, Bool.and_eq_true, decide_eq_true_eq] at h
  rcases h with (⟨ha, _⟩ | ⟨_, hd2⟩) | he
  · exact absurd (h2.trans_lt (by decide)) (not_lt.mpr ha)
  · exact absurd (hd2.trans_lt (by decide)) (not_lt.mpr h1)
  · subst he; exact absurd h2 (by decide)

theorem not_wsHyphen_of_safe {c : Char} (h : isSafeChar c = true) :
    isWsOrHyphen c = false := by
  by_contra hc
  rw [Bool.not_eq_false] at hc
  simp only [isWsOrHyphen, isJsWs, Bool.or_eq_true, decide_eq_true_eq] at hc
  rcases hc with ((((((h1 | h1) | h1) | h1) | h1) | h1) | h1) <;> subst h1 <;>
    exact absurd h (by decide)

theorem not_jsWs_of_safe {c : Char} (h : isSafeChar c = true) : isJsWs c = false := by
  have := not_wsHyphen_of_safe h
  simp only [isWsOrHyphen, Bool.or_eq_false_iff] at this
  exact this.1

theorem dropWhile_eq_self_of_all {p : Char → Bool} {cs : List Char}
    (h : ∀ c ∈ cs, p c = false) : cs.dropWhile p = cs := by
  cases cs with
  | nil => rfl
  | cons c rest =>
      rw [List.dropWhile_cons_of_neg]
      simp [h c (by simp)]

theorem jsTrimChars_eq_self_of_no_ws {cs : List Char}
    (h : ∀ c ∈ cs, isJsWs c = false) : jsTrimChars cs = cs := by
  unfold jsTrimChars
  rw [dropWhile_eq_self_of_all h,
      dropWhile_eq_self_of_all (fun c hc => h c (List.mem_reverse.mp hc)),
      List.reverse_reverse]

theorem collapseWsHyphen_eq_self {cs : List Char}
    (h : ∀ c ∈ cs, isWsOrHyphen c = false) : collapseWsHyphen cs = cs := by
  unfold collapseWsHyphen
  induction cs with
  | nil => rfl
  | cons c rest ih =>
      rw [collapseAux, if_neg (by simp [h c (by simp)]),
          ih (fun x hx => h x (by simp [hx]))]

theorem safeFieldCore_all_safe (cs : List Char) :
    ∀ c ∈ safeFieldCore cs, isSafeChar c = true :=
  fun _ hc => (List.mem_filter.mp hc).2

theorem safeFieldChars_all_safe (cs : List Char) :
    ∀ c ∈ safeFieldChars cs, isSafeChar c = true := by
  unfold safeFieldChars
  intro c hc
  split at hc
  · exact safeFieldCore_all_safe cs c hc
  · simp only [List.mem_cons] at hc
    rcases hc with rfl | rfl | hc
    · decide
    · decide
    · exact safeFieldCore_all_safe cs c hc

theorem safeFieldChars_head (cs : List Char) :
    headIsLowerOrUnderscore (safeFieldChars cs) = true := by
  unfold safeFieldChars
  split
  · assumption
  · rfl

theorem safeFieldChars_ne_nil (cs : List Char) : safeFieldChars cs ≠ [] := by
  unfold safeFieldChars
  split
  next hcond =>
    intro h
    rw [h] at hcond
    exact absurd hcond (by decide)
  next => simp

theorem safeFieldCore_eq_self_of_safe {l : List Char}
    (h : ∀ c ∈ l, isSafeChar c = true) : safeFieldCore l = l := by
  unfold safeFieldCore
  have hmap : l.map jsToLowerChar = l := by
    conv_rhs => rw [← List.map_id l]
    exact List.map_congr_left (fun a ha => jsToLowerChar_eq_self_of_safe (h a ha))
  rw [hmap, collapseWsHyphen_eq_self (fun c hc => not_wsHyphen_of_safe (h c hc)),
      List.filter_eq_self.mpr h]

theorem safeFieldChars_eq_self_of_fix {l : List Char}
    (hsafe : ∀ c ∈ l, isSafeChar c = true)
    (hhead : headIsLowerOrUnderscore l = true) : safeFieldChars l = l := by
  unfold safeFieldChars
  rw [safeFieldCore_eq_self_of_safe hsafe, if_pos hhead]

theorem safeFieldChars_idem (cs : List Char) :
    safeFieldChars (safeFieldChars cs) = safeFieldChars cs :=
  safeFieldChars_eq_self_of_fix (safeFieldChars_all_safe cs) (safeFieldChars_head cs)

theorem string_mk_eq_empty_iff (cs : List Char) : (⟨cs⟩ : String) = "" ↔ cs = [] := by
  constructor
  · intro h
    exact congrArg String.data h
  · rintro rfl
    rfl

theorem safeFieldName_eq_none_iff (s : String) :
    safeFieldName s = none ↔ jsTrim s = "" := by
  unfold safeFieldName jsTrim
  split
  next hempty =>
    subst hempty
    simp [jsTrimChars]
  next =>
    split
    next ht => simp [string_mk_eq_empty_iff, ht]
    next ht => simp [string_mk_eq_empty_iff, ht]

theorem safeFieldName_fix (cs : List Char) :
    safeFieldName ⟨safeFieldChars cs⟩ = some ⟨safeFieldChars cs⟩ := by
  have hsafe := safeFieldChars_all_safe cs
  have hne := safeFieldChars_ne_nil cs
  have htrim : jsTrimChars (String.data ⟨safeFieldChars cs⟩) = safeFieldChars cs :=
    jsTrimChars_eq_self_of_no_ws (fun c hc => not_jsWs_of_safe (hsafe c hc))
  unfold safeFieldName
  rw [if_neg (fun h => hne ((string_mk_eq_empty_iff _).mp h)), htrim, if_neg hne,
      safeFieldChars_idem]

/-- C8: the field normalizer trims, lower-cases, collapses whitespace/hyphen
runs to `_`, strips characters outside `[a-z0-9_]` and prepends the fixed
marker `f_` when the result does not start with `[a-z_]` (this pipeline is
`safeFieldChars`); it returns `null` exactly for inputs that trim to the empty
string; consequently every non-null result is nonempty, starts with a letter
or underscore, contains only `[a-z0-9_]` characters, and is a fixed point of
the normalizer (stable across repeated application). -/
theorem safeFieldName_spec (s : String) :
    (safeFieldName s = none ↔ jsTrim s = "") ∧
    ∀ r, safeFieldName s = some r →
      r ≠ "" ∧
      (∀ c ∈ r.data, isSafeChar c = true) ∧
      headIsLowerOrUnderscore r.data = true ∧
      safeFieldName r = some r := by
  refine ⟨safeFieldName_eq_none_iff s, fun r hr => ?_⟩
  have : ∃ cs, r = (⟨safeFieldChars cs⟩ : String) := by
    unfold safeFieldName at hr
    split at hr
    · exact absurd hr (by simp)
    · split at hr
      · exact absurd hr (by simp)
      · exact ⟨_, (Option.some_injective _ hr).symm⟩
  obtain ⟨cs, rfl⟩ := this
  refine ⟨fun h => safeFieldChars_ne_nil cs ((string_mk_eq_empty_iff _).mp h),
    safeFieldChars_all_safe cs, safeFieldChars_head cs, safeFieldName_fix cs⟩

/-- Witness for C8 at the spec's own examples: `"Company Name!!"` normalizes
to `"company_name"` and `"123abc"` to the marker-prefixed `"f_123abc"`, both
fixed points of the normalizer. -/
theorem safeFieldName_spec_witness :
    safeFieldName "Company Name!!" = some "company_name" ∧
    safeFieldName "123abc" = some "f_123abc" ∧
    ("company_name" ≠ "" ∧
      (∀ c ∈ String.data "company_name", isSafeChar c = true) ∧
      headIsLowerOrUnderscore (String.data "company_name") = true ∧
      safeFieldName "company_name" = some "company_name") ∧
    ("f_123abc" ≠ "" ∧
      (∀ c ∈ String.data "f_123abc", isSafeChar c = true) ∧
      headIsLowerOrUnderscore (String.data "f_123abc") = true ∧
      safeFieldName "f_123abc" = some "f_123abc") :=
  ⟨by decide, by decide,
    (safeFieldName_spec "Company Name!!").2 "company_name" (by decide),
    (safeFieldName_spec "123abc").2 "f_123abc" (by decide)⟩

/-! ## Code generator lemmas (claim C9) -/

theorem ticketCodeAlphabet_getD_mem (k : Nat) (h : k < 36) :
    ticketCodeAlphabet.getD k 'A' ∈ ticketCodeAlphabet := by
  have hlen : k < ticketCodeAlphabet.length := by
    have h36 : ticketCodeAlphabet.length = 36 := by decide
    omega
  rw [List.getD_eq_getElem?_getD, List.getElem?_eq_getElem hlen]
  exact List.getElem_mem hlen

theorem toDigitsCore_step (f n : Nat) (h : 10 ≤ n) :
    (Nat.toDigitsCore 10 (f + 1) n []).length =
      (Nat.toDigitsCore 10 f (n / 10) []).length + 1 := by
  have hdiv : ¬ n / 10 = 0 := by omega
  simp only [Nat.toDigitsCore, hdiv, if_false]
  exact Nat.toDigitsCore_lens_eq 10 f (n / 10) (Nat.digitChar (n % 10)) []

theorem toDigitsCore_small (f n : Nat) (h : n < 10) :
    (Nat.toDigitsCore 10 (f + 1) n []).length = 1 := by
  have hdiv : n / 10 = 0 := Nat.div_eq_of_lt h
  simp [Nat.toDigitsCore, hdiv]

theorem repr_length_five {n : Nat} (h1 : 10000 ≤ n) (h2 : n < 100000) :
    (Nat.repr n).length = 5 := by
  show (Nat.toDigitsCore 10 (n + 1) n []).length = 5
  obtain ⟨f, hf⟩ : ∃ f, n + 1 = f + 5 := ⟨n - 4, by omega⟩
  rw [hf, show f + 5 = (f + 4) + 1 from rfl, toDigitsCore_step _ _ (by omega),
      show f + 4 = (f + 3) + 1 from rfl, toDigitsCore_step _ _ (by omega),
      show f + 3 = (f + 2) + 1 from rfl, toDigitsCore_step _ _ (by omega),
      show f + 2 = (f + 1) + 1 from rfl, toDigitsCore_step _ _ (by omega),
      toDigitsCore_small _ _ (by omega)]

theorem toDigitsCore_all_alphabet (f : Nat) : ∀ (n : Nat) (acc : List Char),
    (∀ c ∈ acc, c ∈ ticketCodeAlphabet) →
    ∀ c ∈ Nat.toDigitsCore 10 f n acc, c ∈ ticketCodeAlphabet := by
  have hall : ∀ k, k < 10 → Nat.digitChar k ∈ ticketCodeAlphabet := by decide
  induction f with
  | zero => intro n acc hacc; simpa [Nat.toDigitsCore] using hacc
  | succ f ih =>
      intro n acc hacc c hc
      have hd : Nat.digitChar (n % 10) ∈ ticketCodeAlphabet :=
        hall _ (Nat.mod_lt _ (by omega))
      simp only [Nat.toDigitsCore] at hc
      by_cases h0 : n / 10 = 0
      · rw [if_pos h0] at hc
        rcases List.mem_cons.mp hc with rfl | hmem
        · exact hd
        · exact hacc c hmem
      · rw [if_neg h0] at hc
        refine ih (n / 10) (Nat.digitChar (n % 10) :: acc) ?_ c hc
        intro x hx
        rcases List.mem_cons.mp hx with rfl | hx
        · exact hd
        · exact hacc x hx

/-- C9 (amended): the `saveRegistration`/`tickets-upgrade` generators draw
every code character from the fixed alphabet of uppercase letters and digits
and produce bodies of exactly 6 characters behind their marker; the
awardees/speakers generator instead produces 5-character all-digit codes, so
excluding markers the code length across all generators is 5–10, not 6–10;
and no generator guarantees uniqueness by itself (distinct random draws can
produce the same code). -/
theorem generateTicketCode_alphabet_length :
    (∀ r : Nat → Fin 36, ∃ body : List Char,
        generateTicketCode r 6 = "TICK-" ++ ⟨body⟩ ∧ body.length = 6 ∧
        ∀ c ∈ body, c ∈ ticketCodeAlphabet) ∧
    (∀ (r : Nat → Fin 36) (pre : String), ∃ body : List Char,
        generateTicketCodeUpgrade r 6 pre = pre ++ ⟨body⟩ ∧ body.length = 6 ∧
        ∀ c ∈ body, c ∈ ticketCodeAlphabet) ∧
    (∀ r : Fin 90000,
        (generateTicketCodeNumeric r).length = 5 ∧
        ∀ c ∈ (generateTicketCodeNumeric r).data, c ∈ ticketCodeAlphabet) ∧
    (∃ r1 r2 : Nat → Fin 36, r1 ≠ r2 ∧
        generateTicketCode r1 6 = generateTicketCode r2 6) := by
  have hbody : ∀ (r : Nat → Fin 36),
      ((List.range 6).map (fun i => ticketCodeAlphabet.getD (r i).val 'A')).length = 6 ∧
      ∀ c ∈ (List.range 6).map (fun i => ticketCodeAlphabet.getD (r i).val 'A'),
        c ∈ ticketCodeAlphabet := by
    intro r
    refine ⟨by simp, fun c hc => ?_⟩
    obtain ⟨i, _, rfl⟩ := List.mem_map.mp hc
    exact ticketCodeAlphabet_getD_mem _ (r i).isLt
  refine ⟨fun r => ⟨_, rfl, hbody r⟩, fun r pre => ⟨_, rfl, hbody r⟩, fun r => ?_, ?_⟩
  · constructor
    · show (Nat.repr (10000 + r.val)).length = 5
      exact repr_length_five (by omega) (by omega)
    · show ∀ c ∈ (Nat.repr (10000 + r.val)).data, c ∈ ticketCodeAlphabet
      show ∀ c ∈ Nat.toDigitsCore 10 (10000 + r.val + 1) (10000 + r.val) [],
        c ∈ ticketCodeAlphabet
      exact toDigitsCore_all_alphabet _ _ _ (by simp)
  · refine ⟨fun _ => ⟨0, by omega⟩, fun n => if n < 6 then ⟨0, by omega⟩ else ⟨1, by omega⟩,
      fun h => ?_, rfl⟩
    have := congrFun h 6
    simp at this

/-- C9 counterexample: the awardees/speakers `generateTicketCode` emits the
5-character code `"10000"` (at random draw 0), whose length lies outside the
claimed 6–10 band. -/
theorem generateTicketCodeNumeric_counterexample :
    generateTicketCodeNumeric ⟨0, by omega⟩ = "10000" ∧
    (generateTicketCodeNumeric ⟨0, by omega⟩).length = 5 ∧
    ¬ (6 ≤ (generateTicketCodeNumeric ⟨0, by omega⟩).length ∧
        (generateTicketCodeNumeric ⟨0, by omega⟩).length ≤ 10) := by
  refine ⟨by decide, by decide, ?_⟩
  rintro ⟨h, _⟩
  rw [show (generateTicketCodeNumeric ⟨0, by omega⟩).length = 5 from by decide] at h
  omega

/-! ## Resolver lookup lemmas (claims C1, C3, C6) -/

theorem docMatchesKey_parts {k : String} {kn : Option Int} {d : Doc}
    (h : docMatchesKey k kn d = false) :
    mongoFieldEq d "ticket_code" (.vStr k) = false ∧
    (∀ n, kn = some n → mongoFieldEq d "ticket_code_num" (.vNum n) = false ∧
      mongoFieldEq d "ticket_code" (.vNum n) = false) ∧
    candidateOrMatches k kn d = false ∧
    quickFieldHit k kn d = false ∧ deepInspectHit k d = false := by
  refine ⟨?_, ?_, ?_, ?_, ?_⟩
  · by_contra hc
    rw [Bool.not_eq_false] at hc
    rw [show docMatchesKey k kn d = true from by simp [docMatchesKey, hc]] at h
    simp at h
  · intro n hn
    subst hn
    constructor
    · by_contra hc
      rw [Bool.not_eq_false] at hc
      rw [show docMatchesKey k (some n) d = true from by simp [docMatchesKey, hc]] at h
      simp at h
    · by_contra hc
      rw [Bool.not_eq_false] at hc
      rw [show docMatchesKey k (some n) d = true from by simp [docMatchesKey, hc]] at h
      simp at h
  · by_contra hc
    rw [Bool.not_eq_false] at hc
    rw [show docMatchesKey k kn d = true from by simp [docMatchesKey, hc]] at h
    simp at h
  · by_contra hc
    rw [Bool.not_eq_false] at hc
    rw [show docMatchesKey k kn d = true from by simp [docMatchesKey, hc]] at h
    simp at h
  · by_contra hc
    rw [Bool.not_eq_false] at hc
    rw [show docMatchesKey k kn d = true from by simp [docMatchesKey, hc]] at h
    simp at h

theorem searchCollection_eq_none {keyStr : String} {keyNum : Option Int}
    {limit : Nat} {docs : List Doc}
    (h : ∀ d ∈ docs, docMatchesKey keyStr keyNum d = false) :
    searchCollection keyStr keyNum limit docs = none := by
  have t1 : docs.find? (fun d => mongoFieldEq d "ticket_code" (.vStr keyStr)) = none :=
    List.find?_eq_none.mpr (fun d hd => by simp [(docMatchesKey_parts (h d hd)).1])
  have t2 : docs.find? (candidateOrMatches keyStr keyNum) = none :=
    List.find?_eq_none.mpr (fun d hd => by simp [(docMatchesKey_parts (h d hd)).2.2.1])
  have t3 : (scanPool docs limit).find?
      (fun d => quickFieldHit keyStr keyNum d || deepInspectHit keyStr d) = none := by
    refine List.find?_eq_none.mpr (fun d hd => ?_)
    have hmem : d ∈ docs :=
      List.mem_of_mem_filter (List.mem_of_mem_take hd)
    simp [(docMatchesKey_parts (h d hmem)).2.2.2.1,
      (docMatchesKey_parts (h d hmem)).2.2.2.2]
  rcases keyNum with _ | n
  · simp [searchCollection, t1, t2, t3]
  · have t1b : docs.find? (fun d => mongoFieldEq d "ticket_code_num" (.vNum n)) = none :=
      List.find?_eq_none.mpr
        (fun d hd => by simp [((docMatchesKey_parts (h d hd)).2.1 n rfl).1])
    have t1c : docs.find? (fun d => mongoFieldEq d "ticket_code" (.vNum n)) = none :=
      List.find?_eq_none.mpr
        (fun d hd => by simp [((docMatchesKey_parts (h d hd)).2.1 n rfl).2])
    simp [searchCollection, t1, t1b, t1c, t2, t3]

theorem searchCollections_append_found {db : DB} {keyStr : String}
    {keyNum : Option Int} {limit : Nat} {pre post : List String} {c : String}
    {d : Doc}
    (hpre : ∀ c' ∈ pre, ∀ d' ∈ db c', docMatchesKey keyStr keyNum d' = false)
    (hc : searchCollection keyStr keyNum limit (db c) = some d) :
    searchCollections db keyStr keyNum limit (pre ++ c :: post) = some (d, c) := by
  induction pre with
  | nil => simp [searchCollections, hc]
  | cons p rest ih =>
      rw [List.cons_append, searchCollections,
        searchCollection_eq_none (hpre p (by simp))]
      exact ih (fun c' h' => hpre c' (by simp [h']))

theorem find?_eq_some_of_unique {α : Type} {p : α → Bool} {l : List α} {d : α}
    (hmem : d ∈ l) (hd : p d = true) (huniq : ∀ x ∈ l, p x = true → x = d) :
    l.find? p = some d := by
  induction l with
  | nil => cases hmem
  | cons a rest ih =>
      by_cases ha : p a = true
      · rw [List.find?_cons_of_pos _ ha]
        exact congrArg some (huniq a (by simp) ha)
      · rw [List.find?_cons_of_neg _ (by simpa using ha)]
        rcases List.mem_cons.mp hmem with rfl | hmem2
        · exact absurd hd ha
        · exact ih hmem2 (fun x hx hpx => huniq x (by simp [hx]) hpx)

theorem searchCollection_eq_some_unique {keyStr : String} {keyNum : Option Int}
    {limit : Nat} {docs : List Doc} {d : Doc}
    (hmem : d ∈ docs)
    (htier1 : mongoFieldEq d "ticket_code" (.vStr keyStr) = true)
    (huniq : ∀ d' ∈ docs, docMatchesKey keyStr keyNum d' = true → d' = d) :
    searchCollection keyStr keyNum limit docs = some d := by
  have t1 : docs.find? (fun d0 => mongoFieldEq d0 "ticket_code" (.vStr keyStr)) = some d :=
    find?_eq_some_of_unique hmem htier1
      (fun x hx hpx => huniq x hx (by simp [docMatchesKey, hpx]))
  unfold searchCollection
  rw [t1]

theorem searchCollection_isSome {keyStr : String} {keyNum : Option Int}
    {limit : Nat} {docs : List Doc} {d : Doc}
    (hmem : d ∈ docs) (hhit : candidateOrMatches keyStr keyNum d = true) :
    ∃ d', searchCollection keyStr keyNum limit docs = some d' := by
  unfold searchCollection
  cases h1 : docs.find? (fun d0 => mongoFieldEq d0 "ticket_code" (.vStr keyStr)) with
  | some d1 => exact ⟨d1, rfl⟩
  | none =>
      cases h1b : (match keyNum with
                   | some n => docs.find? (fun d0 => mongoFieldEq d0 "ticket_code_num" (.vNum n))
                   | none => none) with
      | some d1 => exact ⟨d1, rfl⟩
      | none =>
          cases h1c : (match keyNum with
                       | some n => docs.find? (fun d0 => mongoFieldEq d0 "ticket_code" (.vNum n))
                       | none => none) with
          | some d1 => exact ⟨d1, rfl⟩
          | none =>
              cases h2 : docs.find? (candidateOrMatches keyStr keyNum) with
              | some d1 => exact ⟨d1, rfl⟩
              | none =>
                  exact absurd hhit
                    (by simpa using List.find?_eq_none.mp h2 d hmem)

/-- C6: for a payload whose extracted key matches no stored record,
resolution answers 404 `NotFound` (a total function of the model: nothing
throws), and the fallback scan of each collection inspects at most `limit`
documents — the pool it iterates is capped, never unbounded. -/
theorem unknown_ticket_not_found (db : DB) (limit : Nat) (input : Option JsVal)
    (k : String)
    (hext : extractTicketId input = some k) (hk : k ≠ "")
    (hnone : ∀ c ∈ resolverCollections, ∀ d ∈ db c,
      docMatchesKey (jsTrim k) (numKeyOf (jsTrim k)) d = false) :
    validateRoute db limit input = .notFound ∧
    ∀ c, (scanPool (db c) limit).length ≤ limit := by
  constructor
  · have hfind : findTicketDetailed db k limit = none := by
      unfold findTicketDetailed
      have : ∀ names : List String, (∀ c ∈ names, c ∈ resolverCollections) →
          searchCollections db (jsTrim k) (numKeyOf (jsTrim k)) limit names = none := by
        intro names
        induction names with
        | nil => intro _; rfl
        | cons c rest ih =>
            intro hsub
            rw [searchCollections, searchCollection_eq_none (hnone c (hsub c (by simp)))]
            exact ih (fun c' h' => hsub c' (by simp [h']))
      exact this resolverCollections (fun c h => h)
    unfold validateRoute
    rw [hext]
    dsimp only
    rw [if_neg hk, hfind]
  · intro c
    unfold scanPool
    exact List.length_take_le limit ((db c).filter hasAnyCandidateOrRaw)

/-- Witness for C6: `"NOT-A-REAL-CODE-000"` against a database holding one
unrelated record resolves to 404. -/
theorem unknown_ticket_not_found_witness :
    validateRoute witNotFoundDb defaultScanLimit
        (some (.vStr "NOT-A-REAL-CODE-000")) = .notFound ∧
    ∀ c, (scanPool (witNotFoundDb c) defaultScanLimit).length ≤ defaultScanLimit :=
  unknown_ticket_not_found witNotFoundDb defaultScanLimit
    (some (.vStr "NOT-A-REAL-CODE-000")) "NOT-A-REAL-CODE-000" (by decide)
    (by decide) (by decide)

theorem candidateOrMatches_of_ci {keyStr : String} {keyNum : Option Int} {d : Doc}
    (h : mongoFieldRegexCi d "ticket_code" keyStr = true) :
    candidateOrMatches keyStr keyNum d = true := by
  unfold candidateOrMatches
  rw [List.any_eq_true]
  exact ⟨"ticket_code", by simp [candidateFields], by simp [h]⟩

/-- C3: the resolver searches the role collections in the fixed order
`visitors, exhibitors, partners, speakers, awardees`, short-circuits on the
first hit, and tries the exact `ticket_code` tier before the fuzzy tiers
within each collection (that order is the definition of
`searchCollection`); consequently a record matched only case-insensitively
in collection `c` is returned with collection `c` whenever no earlier
collection matches at any tier — later collections, whatever they hold
(including exact-tier matches), cannot shadow it. -/
theorem resolver_tier_ordering :
    resolverCollections = ["visitors", "exhibitors", "partners", "speakers", "awardees"] ∧
    ∀ (db : DB) (limit : Nat) (key : String) (pre post : List String)
      (c : String) (d : Doc),
      resolverCollections = pre ++ c :: post →
      (∀ c' ∈ pre, ∀ d' ∈ db c',
        docMatchesKey (jsTrim key) (numKeyOf (jsTrim key)) d' = false) →
      d ∈ db c →
      mongoFieldRegexCi d "ticket_code" (jsTrim key) = true →
      ∃ d', findTicketDetailed db key limit = some (d', c) := by
  refine ⟨rfl, ?_⟩
  intro db limit key pre post c d hsplit hpre hmem hci
  obtain ⟨d', hd'⟩ := @searchCollection_isSome (jsTrim key) (numKeyOf (jsTrim key))
    limit (db c) d hmem (candidateOrMatches_of_ci hci)
  refine ⟨d', ?_⟩
  unfold findTicketDetailed
  rw [hsplit]
  exact searchCollections_append_found hpre hd'

/-- Witness for C3: key `"TICK-ABC"`; exhibitors (earlier) holds only the
case-insensitive match `"tick-abc"`, speakers (later) an exact match; the
resolver answers from exhibitors. -/
theorem resolver_tier_ordering_witness :
    ∃ d', findTicketDetailed witTierDb "TICK-ABC" defaultScanLimit =
      some (d', "exhibitors") :=
  resolver_tier_ordering.2 witTierDb defaultScanLimit "TICK-ABC"
    ["visitors"] ["partners", "speakers", "awardees"] "exhibitors" witTierDocCi
    (by decide) (by decide) (by decide) (by decide)

/-! ## Extraction layering (claim C4) -/

theorem firstTokenMatch_shape :
    ∀ (cs : List Char) (r : String), firstTokenMatch cs = some r →
      (∀ ch ∈ r.data, isTokenChar ch = true) ∧ 3 ≤ r.length ∧ r.length ≤ 64 := by
  intro cs
  induction cs with
  | nil => intro r hr; simp [firstTokenMatch] at hr
  | cons c rest ih =>
      intro r hr
      rw [firstTokenMatch] at hr
      split at hr
      next hlen =>
        obtain rfl : r = ⟨(List.takeWhile isTokenChar (c :: rest)).take 64⟩ :=
          (Option.some_injective _ hr).symm
        refine ⟨?_, ?_, ?_⟩
        · intro ch hch
          exact List.mem_takeWhile_imp (List.mem_of_mem_take hch)
        · show 3 ≤ (List.take 64 (List.takeWhile isTokenChar (c :: rest))).length
          rw [List.length_take]
          omega
        · show (List.take 64 (List.takeWhile isTokenChar (c :: rest))).length ≤ 64
          exact List.length_take_le _ _
      next => exact ih r hr

theorem firstDigitRun_shape :
    ∀ (cs : List Char) (r : String), firstDigitRun cs = some r →
      (∀ ch ∈ r.data, isAsciiDigit ch = true) ∧ 3 ≤ r.length ∧ r.length ≤ 12 := by
  intro cs
  induction cs with
  | nil => intro r hr; simp [firstDigitRun] at hr
  | cons c rest ih =>
      intro r hr
      rw [firstDigitRun] at hr
      split at hr
      next hlen =>
        obtain rfl : r = ⟨(List.takeWhile isAsciiDigit (c :: rest)).take 12⟩ :=
          (Option.some_injective _ hr).symm
        refine ⟨?_, ?_, ?_⟩
        · intro ch hch
          exact List.mem_takeWhile_imp (List.mem_of_mem_take hch)
        · show 3 ≤ (List.take 12 (List.takeWhile isAsciiDigit (c :: rest))).length
          rw [List.length_take]
          omega
        · show (List.take 12 (List.takeWhile isAsciiDigit (c :: rest))).length ≤ 12
          exact List.length_take_le _ _
      next => exact ih r hr

/-- C4: extraction is layered — on a trimmed-nonempty string whose JSON parse
yields no (truthy) object and which does not look like base64, the result is
exactly the first token match, falling back to the first digit run; a token
match always consists of token characters with length 3–64 and a digit run of
digits with length 3–12; a string parsing to a (truthy) object whose alias
extraction succeeds short-circuits with that value; and when no layer
produces a key, the route answers 400 `InvalidPayload` instead of a key. -/
theorem extraction_layering_spec :
    (∀ (cs : List Char) (r : String), firstTokenMatch cs = some r →
      (∀ ch ∈ r.data, isTokenChar ch = true) ∧ 3 ≤ r.length ∧ r.length ≤ 64) ∧
    (∀ (cs : List Char) (r : String), firstDigitRun cs = some r →
      (∀ ch ∈ r.data, isAsciiDigit ch = true) ∧ 3 ≤ r.length ∧ r.length ≤ 12) ∧
    (∀ s : String, jsTrim s ≠ "" →
      (∀ v, tryParseJsonSafe (jsTrim s) = some v → isObjTruthy v = false) →
      looksLikeBase64 (jsTrim s) = false →
      extractFromString s =
        (match firstTokenMatch (jsTrim s).data with
         | some tk => some tk
         | none => firstDigitRun (jsTrim s).data)) ∧
    (∀ (s : String) (v : JsVal) (f : String), jsTrim s ≠ "" →
      tryParseJsonSafe (jsTrim s) = some v → isObjTruthy v = true →
      extractTicketIdFromObject v = some f → extractFromString s = some f) ∧
    (∀ (db : DB) (limit : Nat) (input : Option JsVal),
      extractTicketId input = none → validateRoute db limit input = .invalidPayload) := by
  refine ⟨firstTokenMatch_shape, firstDigitRun_shape, ?_, ?_, ?_⟩
  · intro s hne hparse hb64
    unfold extractFromString
    rw [if_neg hne]
    have hjson : jsonExtractLayer (jsTrim s) = none := by
      unfold jsonExtractLayer
      cases hp : tryParseJsonSafe (jsTrim s) with
      | none => rfl
      | some v =>
          dsimp only
          rw [if_neg (by simp [hparse v hp])]
    have hb : b64ExtractLayer (jsTrim s) = none := by
      unfold b64ExtractLayer
      rw [if_neg (by simp [hb64])]
    rw [hjson, hb]
  · intro s v f hne hp hobj hext
    unfold extractFromString
    rw [if_neg hne]
    have hjson : jsonExtractLayer (jsTrim s) = some f := by
      unfold jsonExtractLayer
      rw [hp]
      dsimp only
      rw [if_pos hobj, hext]
    rw [hjson]
  · intro db limit input hnone
    unfold validateRoute
    rw [hnone]

/-- Witness for C4: the token part at `"!a@bc123"` (first match `"bc123"`),
the digit part at `"ab12 3456789"`, the fallthrough at `"hello TICK-1"`
(non-JSON, non-base64), the JSON precedence at `'{"ticket_code":"X9.Y"}'`,
and the 400 response at the unextractable payload `"!!"`. -/
theorem extraction_layering_spec_witness :
    ((∀ ch ∈ String.data "bc123", isTokenChar ch = true) ∧
      3 ≤ ("bc123" : String).length ∧ ("bc123" : String).length ≤ 64) ∧
    ((∀ ch ∈ String.data "3456789", isAsciiDigit ch = true) ∧
      3 ≤ ("3456789" : String).length ∧ ("3456789" : String).length ≤ 12) ∧
    extractFromString "hello TICK-1" =
      (match firstTokenMatch (jsTrim "hello TICK-1").data with
       | some tk => some tk
       | none => firstDigitRun (jsTrim "hello TICK-1").data) ∧
    extractFromString "\x7b\"ticket_code\":\"X9.Y\"\x7d" = some "X9.Y" ∧
    validateRoute witNotFoundDb defaultScanLimit (some (.vStr "!!")) =
      .invalidPayload := by
  refine ⟨extraction_layering_spec.1 "!a@bc123".data "bc123" (by decide),
    extraction_layering_spec.2.1 "ab12 3456789".data "3456789" (by decide),
    extraction_layering_spec.2.2.1 "hello TICK-1" (by decide) ?_ (by decide),
    extraction_layering_spec.2.2.2.1 "\x7b\"ticket_code\":\"X9.Y\"\x7d"
      (.vObj [("ticket_code", .vStr "X9.Y")]) "X9.Y" (by decide) (by decide)
      (by decide) (by decide),
    extraction_layering_spec.2.2.2.2 witNotFoundDb defaultScanLimit
      (some (.vStr "!!")) (by decide)⟩
  intro v hv
  rw [show tryParseJsonSafe (jsTrim "hello TICK-1") = none from by decide] at hv
  cases hv

/-! ## JSON parser lemmas (claim C1) -/

theorem tokenChar_not_special {c : Char} (h : isTokenChar c = true) :
    isJsonWs c = false ∧ isJsWs c = false ∧ (c = '{' → False) ∧ (c = '[' → False) ∧
      (c = '"' → False) ∧ (c = '\\' → False) := by
  refine ⟨?_, ?_, ?_, ?_, ?_, ?_⟩
  · by_contra hc
    rw [Bool.not_eq_false] at hc
    simp only [isJsonWs, Bool.or_eq_true, decide_eq_true_eq] at hc
    rcases hc with ((h1 | h1) | h1) | h1 <;> subst h1 <;> exact absurd h (by decide)
  · by_contra hc
    rw [Bool.not_eq_false] at hc
    simp only [isJsWs, Bool.or_eq_true, decide_eq_true_eq] at hc
    rcases hc with ((((h1 | h1) | h1) | h1) | h1) | h1 <;> subst h1 <;>
      exact absurd h (by decide)
  · intro h1; subst h1; exact absurd h (by decide)
  · intro h1; subst h1; exact absurd h (by decide)
  · intro h1; subst h1; exact absurd h (by decide)
  · intro h1; subst h1; exact absurd h (by decide)

theorem tokenChar_ascii {c : Char} (h : isTokenChar c = true) : c.toNat < 128 := by
  simp only [isTokenChar, Bool.or_eq_true, Bool.and_eq_true, decide_eq_true_eq] at h
  rcases h with ((((⟨_, h2⟩ | ⟨_, h2⟩) | ⟨_, h2⟩) | h2) | h2) | h2
  · have : c.toNat ≤ 90 := by exact_mod_cast Char.le_def.mp h2
    omega
  · have : c.toNat ≤ 122 := by exact_mod_cast Char.le_def.mp h2
    omega
  · have : c.toNat ≤ 57 := by exact_mod_cast Char.le_def.mp h2
    omega
  · subst h2; decide
  · subst h2; decide
  · subst h2; decide

theorem parseStrBody_append (cs rest : List Char)
    (h : ∀ c ∈ cs, (c = '"' → False) ∧ (c = '\\' → False)) :
    parseStrBody (cs ++ '"' :: rest) = some (cs, rest) := by
  induction cs with
  | nil => simp [parseStrBody.eq_def]
  | cons c cs2 ih =>
      obtain ⟨h1, h2⟩ := h c (by simp)
      rw [List.cons_append, parseStrBody.eq_def]
      dsimp only
      rw [if_neg h1, if_neg h2, ih (fun x hx => h x (by simp [hx]))]
      rfl

theorem parseNumber_num {cs : List Char} {v : JsVal} {r : List Char}
    (h : parseNumber cs = some (v, r)) : ∃ n, v = .vNum n := by
  unfold parseNumber at h
  split at h
  · cases hd : parseDigits _ with
    | none => rw [hd] at h; cases h
    | some p =>
        rw [hd] at h
        simp only [Option.map_some'] at h
        obtain ⟨hv, _⟩ := Prod.mk.injEq .. ▸ Option.some_injective _ h
        exact ⟨_, hv.symm⟩
  · cases hd : parseDigits cs with
    | none => rw [hd] at h; cases h
    | some p =>
        rw [hd] at h
        simp only [Option.map_some'] at h
        obtain ⟨hv, _⟩ := Prod.mk.injEq .. ▸ Option.some_injective _ h
        exact ⟨_, hv.symm⟩

theorem parseValue_not_obj {fuel : Nat} {cs : List Char}
    (h : ∀ c rest, cs.dropWhile isJsonWs = c :: rest →
      (c = '{' → False) ∧ (c = '[' → False))
    {v : JsVal} {r : List Char} (hres : parseValue fuel cs = some (v, r)) :
    isObjTruthy v = false := by
  match fuel with
  | 0 => rw [parseValue] at hres; cases hres
  | fuel + 1 =>
      rw [parseValue] at hres
      cases hd : cs.dropWhile isJsonWs with
      | nil => rw [hd] at hres; cases hres
      | cons c rest0 =>
          rw [hd] at hres
          obtain ⟨hc1, hc2⟩ := h c rest0 hd
          dsimp only at hres
          rw [if_neg hc1, if_neg hc2] at hres
          by_cases h3 : c = '"'
          · rw [if_pos h3] at hres
            cases hsb : parseStrBody rest0 with
            | none => rw [hsb] at hres; cases hres
            | some p =>
                rw [hsb] at hres
                simp only [Option.map_some'] at hres
                obtain ⟨hv, _⟩ := Prod.mk.injEq .. ▸ Option.some_injective _ hres
                rw [← hv]
                rfl
          · rw [if_neg h3] at hres
            by_cases h4 : c = 't'
            · rw [if_pos h4] at hres
              cases he : expectChars ['r', 'u', 'e'] rest0 with
              | none => rw [he] at hres; cases hres
              | some r2 =>
                  rw [he] at hres
                  simp only [Option.map_some'] at hres
                  obtain ⟨hv, _⟩ := Prod.mk.injEq .. ▸ Option.some_injective _ hres
                  rw [← hv]
                  rfl
            · rw [if_neg h4] at hres
              by_cases h5 : c = 'f'
              · rw [if_pos h5] at hres
                cases he : expectChars ['a', 'l', 's', 'e'] rest0 with
                | none => rw [he] at hres; cases hres
                | some r2 =>
                    rw [he] at hres
                    simp only [Option.map_some'] at hres
                    obtain ⟨hv, _⟩ := Prod.mk.injEq .. ▸ Option.some_injective _ hres
                    rw [← hv]
                    rfl
              · rw [if_neg h5] at hres
                by_cases h6 : c = 'n'
                · rw [if_pos h6] at hres
                  cases he : expectChars ['u', 'l', 'l'] rest0 with
                  | none => rw [he] at hres; cases hres
                  | some r2 =>
                      rw [he] at hres
                      simp only [Option.map_some'] at hres
                      obtain ⟨hv, _⟩ := Prod.mk.injEq .. ▸ Option.some_injective _ hres
                      rw [← hv]
                      rfl
                · rw [if_neg h6] at hres
                  obtain ⟨n, rfl⟩ := parseNumber_num hres
                  rfl

theorem tryParseJsonSafe_not_obj {s : String}
    (h : ∀ c rest, s.data.dropWhile isJsonWs = c :: rest →
      (c = '{' → False) ∧ (c = '[' → False)) :
    ∀ v, tryParseJsonSafe s = some v → isObjTruthy v = false := by
  intro v hv
  unfold tryParseJsonSafe at hv
  cases hp : parseValue (s.length + 1) s.data with
  | none => rw [hp] at hv; cases hv
  | some p =>
      rw [hp] at hv
      dsimp only at hv
      by_cases hr : p.2.dropWhile isJsonWs = []
      · rw [if_pos hr] at hv
        obtain rfl : p.1 = v := Option.some_injective _ hv
        exact parseValue_not_obj h hp
      · rw [if_neg hr] at hv
        cases hv

theorem tryParseJsonSafe_not_obj_of_charset {s : String}
    (hcs : ∀ c ∈ s.data, isJsonWs c = false ∧ (c = '{' → False) ∧ (c = '[' → False)) :
    ∀ v, tryParseJsonSafe s = some v → isObjTruthy v = false := by
  apply tryParseJsonSafe_not_obj
  intro c rest hd
  rw [dropWhile_eq_self_of_all (fun c hc => (hcs c hc).1)] at hd
  have hcmem : c ∈ s.data := by rw [hd]; simp
  exact ⟨(hcs c hcmem).2.1, (hcs c hcmem).2.2⟩

theorem parseValue_quoted (g : Nat) (cs rest : List Char)
    (h : ∀ c ∈ cs, (c = '"' → False) ∧ (c = '\\' → False)) :
    parseValue (g + 1) ('"' :: (cs ++ '"' :: rest)) = some (.vStr ⟨cs⟩, rest) := by
  rw [parseValue, List.dropWhile_cons_of_neg (by decide)]
  dsimp only
  rw [if_neg (by decide), if_neg (by decide), if_pos rfl, parseStrBody_append cs rest h]
  rfl

theorem parseMembers_wrap (g : Nat) (X : String)
    (h : ∀ c ∈ X.data, (c = '"' → False) ∧ (c = '\\' → False)) :
    parseMembers (g + 2)
        ('"' :: ("ticket_code".data ++ '"' :: ':' :: '"' :: (X.data ++ '"' :: '}' :: []))) [] =
      some (.vObj [("ticket_code", .vStr X)], []) := by
  rw [show g + 2 = (g + 1) + 1 from rfl, parseMembers,
    List.dropWhile_cons_of_neg (by decide)]
  dsimp only
  rw [if_pos rfl, parseStrBody_append "ticket_code".data _ (by decide)]
  dsimp only
  rw [List.dropWhile_cons_of_neg (by decide)]
  dsimp only
  rw [if_pos rfl, parseValue_quoted g X.data ('}' :: []) h]
  dsimp only
  rw [List.dropWhile_cons_of_neg (by decide)]
  dsimp only
  rw [if_neg (by decide), if_pos rfl]
  rfl

theorem tryParseJsonSafe_wrap (X : String)
    (h : ∀ c ∈ X.data, (c = '"' → False) ∧ (c = '\\' → False)) :
    tryParseJsonSafe (wrapTicketJson X) = some (.vObj [("ticket_code", .vStr X)]) := by
  unfold tryParseJsonSafe
  have hdata : (wrapTicketJson X).data =
      '{' :: ('"' :: ("ticket_code".data ++ '"' :: ':' :: '"' :: (X.data ++ '"' :: '}' :: []))) := by
    show (("\x7b\"ticket_code\":\"" ++ X) ++ "\"\x7d").data = _
    rw [String.data_append, String.data_append]
    show ('{' :: '"' :: 't' :: 'i' :: 'c' :: 'k' :: 'e' :: 't' :: '_' :: 'c' :: 'o' :: 'd' :: 'e'
        :: '"' :: ':' :: '"' :: []) ++ X.data ++ ('"' :: '}' :: []) = _
    simp
  have hlen : (wrapTicketJson X).length + 1 = (X.length + 16) + 3 := by
    show (("\x7b\"ticket_code\":\"" ++ X) ++ "\"\x7d").length + 1 = _
    rw [String.length_append, String.length_append]
    have h1 : ("\x7b\"ticket_code\":\"" : String).length = 16 := rfl
    have h2 : ("\"\x7d" : String).length = 2 := rfl
    omega
  rw [hlen, hdata, show (X.length + 16) + 3 = ((X.length + 16) + 2) + 1 from rfl,
    parseValue, List.dropWhile_cons_of_neg (by decide)]
  dsimp only
  rw [if_pos rfl, List.dropWhile_cons_of_neg (by decide)]
  dsimp only
  rw [if_neg (by decide), parseMembers_wrap (X.length + 16) X h]
  rfl

/-! ## Base64 lemmas (claim C1) -/

theorem b64Val_b64Char : ∀ k, k < 64 → b64Val (b64Char k) = some k := by decide

theorem b64Val_pad : b64Val '=' = none := by decide

theorem isB64Char_b64Char (n : Nat) : isB64Char (b64Char n) = true := by
  by_cases h : n < 64
  · have hall : ∀ k, k < 64 → isB64Char (b64Char k) = true := by decide
    exact hall n h
  · unfold b64Char
    rw [List.getD_eq_getElem?_getD, List.getElem?_eq_none]
    · rfl
    · have : base64Chars.length = 64 := by decide
      omega

theorem b64_roundtrip : ∀ (n : Nat) (bs : List Nat), bs.length ≤ n →
    (∀ x ∈ bs, x < 256) → b64DecodeChars (b64EncodeBytes bs) = bs := by
  intro n
  induction n with
  | zero =>
      intro bs hlen _
      cases bs with
      | nil => rfl
      | cons a rest => simp at hlen
  | succ n ih =>
      intro bs hlen h
      match bs with
      | [] => rfl
      | [a] =>
          have ha := h a (by simp)
          show b64DecodeChars [b64Char (a / 4), b64Char (a % 4 * 16), '=', '='] = [a]
          unfold b64DecodeChars
          rw [show [b64Char (a / 4), b64Char (a % 4 * 16), '=', '='].filterMap b64Val
              = [a / 4, a % 4 * 16] from by
            simp [List.filterMap, b64Val_b64Char (a / 4) (by omega),
              b64Val_b64Char (a % 4 * 16) (by omega), b64Val_pad]]
          show [(a / 4) * 4 + (a % 4 * 16) / 16] = [a]
          have : (a / 4) * 4 + (a % 4 * 16) / 16 = a := by omega
          rw [this]
      | [a, b] =>
          have ha := h a (by simp)
          have hb := h b (by simp)
          show b64DecodeChars [b64Char (a / 4), b64Char (a % 4 * 16 + b / 16),
            b64Char (b % 16 * 4), '='] = [a, b]
          unfold b64DecodeChars
          rw [show [b64Char (a / 4), b64Char (a % 4 * 16 + b / 16), b64Char (b % 16 * 4),
              '='].filterMap b64Val = [a / 4, a % 4 * 16 + b / 16, b % 16 * 4] from by
            simp [List.filterMap, b64Val_b64Char (a / 4) (by omega),
              b64Val_b64Char (a % 4 * 16 + b / 16) (by omega),
              b64Val_b64Char (b % 16 * 4) (by omega), b64Val_pad]]
          show [(a / 4) * 4 + (a % 4 * 16 + b / 16) / 16,
            (a % 4 * 16 + b / 16) % 16 * 16 + (b % 16 * 4) / 4] = [a, b]
          have h1 : (a / 4) * 4 + (a % 4 * 16 + b / 16) / 16 = a := by omega
          have h2 : (a % 4 * 16 + b / 16) % 16 * 16 + (b % 16 * 4) / 4 = b := by omega
          rw [h1, h2]
      | a :: b :: c :: rest =>
          have ha := h a (by simp)
          have hb := h b (by simp)
          have hc := h c (by simp)
          have hrest := ih rest (by simp at hlen; omega) (fun x hx => h x (by simp [hx]))
          show b64DecodeChars (b64Char (a / 4) :: b64Char (a % 4 * 16 + b / 16) ::
            b64Char (b % 16 * 4 + c / 64) :: b64Char (c % 64) :: b64EncodeBytes rest)
            = a :: b :: c :: rest
          unfold b64DecodeChars
          rw [show (b64Char (a / 4) :: b64Char (a % 4 * 16 + b / 16) ::
              b64Char (b % 16 * 4 + c / 64) :: b64Char (c % 64) ::
              b64EncodeBytes rest).filterMap b64Val
              = (a / 4) :: (a % 4 * 16 + b / 16) :: (b % 16 * 4 + c / 64) :: (c % 64) ::
                (b64EncodeBytes rest).filterMap b64Val from by
            simp [List.filterMap_cons, b64Val_b64Char (a / 4) (by omega),
              b64Val_b64Char (a % 4 * 16 + b / 16) (by omega),
              b64Val_b64Char (b % 16 * 4 + c / 64) (by omega),
              b64Val_b64Char (c % 64) (by omega)]]
          rw [b64DecodeVals]
          have h1 : (a / 4) * 4 + (a % 4 * 16 + b / 16) / 16 = a := by omega
          have h2 : (a % 4 * 16 + b / 16) % 16 * 16 + (b % 16 * 4 + c / 64) / 4 = b := by
            omega
          have h3 : (b % 16 * 4 + c / 64) % 4 * 64 + c % 64 = c := by omega
          rw [h1, h2, h3]
          unfold b64DecodeChars at hrest
          rw [hrest]

theorem bytesToStr_strToBytes (s : String) : bytesToStr (strToBytes s) = s := by
  unfold bytesToStr strToBytes
  rw [List.map_map]
  show (⟨s.data.map (fun c => Char.ofNat c.toNat)⟩ : String) = s
  rw [show s.data.map (fun c => Char.ofNat c.toNat) = s.data.map id from
    List.map_congr_left (fun c _ => Char.ofNat_toNat c), List.map_id]

theorem b64Decode_b64Encode (s : String) (h : ∀ c ∈ s.data, c.toNat < 128) :
    b64Decode (b64Encode s) = s := by
  unfold b64Decode b64Encode
  show bytesToStr (b64DecodeChars (b64EncodeBytes (strToBytes s))) = s
  rw [b64_roundtrip (strToBytes s).length (strToBytes s) le_rfl]
  · exact bytesToStr_strToBytes s
  · intro x hx
    unfold strToBytes at hx
    obtain ⟨c, hc, rfl⟩ := List.mem_map.mp hx
    have := h c hc
    omega

theorem isB64Char_not_special {c : Char} (h : isB64Char c = true) :
    isJsWs c = false ∧ isJsonWs c = false ∧ (c = '{' → False) ∧ (c = '[' → False) := by
  refine ⟨?_, ?_, ?_, ?_⟩
  · by_contra hc
    rw [Bool.not_eq_false] at hc
    simp only [isJsWs, Bool.or_eq_true, decide_eq_true_eq] at hc
    rcases hc with ((((h1 | h1) | h1) | h1) | h1) | h1 <;> subst h1 <;>
      exact absurd h (by decide)
  · by_contra hc
    rw [Bool.not_eq_false] at hc
    simp only [isJsonWs, Bool.or_eq_true, decide_eq_true_eq] at hc
    rcases hc with ((h1 | h1) | h1) | h1 <;> subst h1 <;> exact absurd h (by decide)
  · intro h1; subst h1; exact absurd h (by decide)
  · intro h1; subst h1; exact absurd h (by decide)

theorem b64EncodeBytes_all_b64 : ∀ bs, ∀ c ∈ b64EncodeBytes bs, isB64Char c = true := by
  intro bs
  induction bs using b64EncodeBytes.induct with
  | case1 => intro c hc; cases hc
  | case2 a =>
      intro c hc
      simp only [b64EncodeBytes, List.mem_cons, List.not_mem_nil, or_false] at hc
      rcases hc with rfl | rfl | rfl | rfl
      · exact isB64Char_b64Char _
      · exact isB64Char_b64Char _
      · decide
      · decide
  | case3 a b =>
      intro c hc
      simp only [b64EncodeBytes, List.mem_cons, List.not_mem_nil, or_false] at hc
      rcases hc with rfl | rfl | rfl | rfl
      · exact isB64Char_b64Char _
      · exact isB64Char_b64Char _
      · exact isB64Char_b64Char _
      · decide
  | case4 a b c2 rest ih =>
      intro c hc
      simp only [b64EncodeBytes, List.mem_cons] at hc
      rcases hc with rfl | rfl | rfl | rfl | hc
      · exact isB64Char_b64Char _
      · exact isB64Char_b64Char _
      · exact isB64Char_b64Char _
      · exact isB64Char_b64Char _
      · exact ih c hc

theorem b64EncodeBytes_len_mod : ∀ bs, (b64EncodeBytes bs).length % 4 = 0 := by
  intro bs
  induction bs using b64EncodeBytes.induct with
  | case1 => rfl
  | case2 a => simp [b64EncodeBytes]
  | case3 a b => simp [b64EncodeBytes]
  | case4 a b c rest ih =>
      show (b64EncodeBytes (a :: b :: c :: rest)).length % 4 = 0
      rw [b64EncodeBytes]
      simp only [List.length_cons]
      omega

theorem b64EncodeBytes_ne_nil {bs : List Nat} (h : bs ≠ []) : b64EncodeBytes bs ≠ [] := by
  match bs with
  | [] => exact absurd rfl h
  | [a] => simp [b64EncodeBytes]
  | [a, b] => simp [b64EncodeBytes]
  | a :: b :: c :: rest => simp [b64EncodeBytes]

theorem looksLikeBase64_encode (s : String) (hne : s.data ≠ []) :
    looksLikeBase64 (b64Encode s) = true := by
  have hchars : ∀ c ∈ (b64Encode s).data, isB64Char c = true :=
    b64EncodeBytes_all_b64 (strToBytes s)
  have hstrip : stripJsWs (b64Encode s) = (b64Encode s).data := by
    unfold stripJsWs
    refine List.filter_eq_self.mpr (fun c hc => ?_)
    simp [(isB64Char_not_special (hchars c hc)).1]
  unfold looksLikeBase64
  rw [hstrip]
  have hne2 : (b64Encode s).data ≠ [] :=
    b64EncodeBytes_ne_nil (fun hb => hne (by simpa [strToBytes] using hb))
  have hmod : (b64Encode s).data.length % 4 = 0 := b64EncodeBytes_len_mod (strToBytes s)
  simp [List.all_eq_true, List.isEmpty_iff, hne2]
  exact ⟨hchars, hmod⟩

/-! ## Extraction lemmas for the round-trip claim (C1) -/

theorem jsTrim_eq_self_of_no_ws (s : String) (h : ∀ c ∈ s.data, isJsWs c = false) :
    jsTrim s = s := by
  unfold jsTrim
  rw [jsTrimChars_eq_self_of_no_ws h]

theorem wrap_data_eq (X : String) : (wrapTicketJson X).data =
    "\x7b\"ticket_code\":\"".data ++ X.data ++ "\"\x7d".data := by
  show (("\x7b\"ticket_code\":\"" ++ X) ++ "\"\x7d").data = _
  rw [String.data_append, String.data_append]

theorem wrap_mem_cases {X : String} {c : Char} (hc : c ∈ (wrapTicketJson X).data) :
    c ∈ "\x7b\"ticket_code\":\"".data ∨ c ∈ X.data ∨ c ∈ "\"\x7d".data := by
  rw [wrap_data_eq] at hc
  simpa [List.mem_append, or_assoc] using hc

theorem wrapLit1_facts : ∀ c ∈ "\x7b\"ticket_code\":\"".data,
    isJsWs c = false ∧ c.toNat < 128 := by decide

theorem wrapLit2_facts : ∀ c ∈ "\"\x7d".data, isJsWs c = false ∧ c.toNat < 128 := by
  decide

theorem wrap_no_ws {X : String} (htok : ∀ c ∈ X.data, isTokenChar c = true) :
    ∀ c ∈ (wrapTicketJson X).data, isJsWs c = false := by
  intro c hc
  rcases wrap_mem_cases hc with h | h | h
  · exact (wrapLit1_facts c h).1
  · exact (tokenChar_not_special (htok c h)).2.1
  · exact (wrapLit2_facts c h).1

theorem wrap_ascii {X : String} (htok : ∀ c ∈ X.data, isTokenChar c = true) :
    ∀ c ∈ (wrapTicketJson X).data, c.toNat < 128 := by
  intro c hc
  rcases wrap_mem_cases hc with h | h | h
  · exact (wrapLit1_facts c h).2
  · exact tokenChar_ascii (htok c h)
  · exact (wrapLit2_facts c h).2

theorem wrap_data_ne_nil (X : String) : (wrapTicketJson X).data ≠ [] := by
  rw [wrap_data_eq]
  simp

theorem wrap_ne_empty (X : String) : wrapTicketJson X ≠ "" := by
  intro h
  exact wrap_data_ne_nil X (by rw [h])

theorem extractObj_ticket_code (X : String) (hne : X ≠ "") (htrim : jsTrim X = X) :
    extractTicketIdFromObject (.vObj [("ticket_code", .vStr X)]) = some X := by
  have hhit : preferFieldHit [("ticket_code", .vStr X)] "ticket_code" = some X := by
    unfold preferFieldHit
    rw [show getField [("ticket_code", .vStr X)] "ticket_code" = some (.vStr X) from rfl]
    dsimp only
    rw [if_neg (by simp), show jsToString (.vStr X) = X from rfl, htrim, if_neg hne]
  simp only [extractTicketIdFromObject]
  rw [extractFromPrefer.eq_def]
  dsimp only [preferKeys]
  rw [hhit]

theorem jsonExtractLayer_none_of_charset {s : String}
    (hcs : ∀ c ∈ s.data, isJsonWs c = false ∧ (c = '{' → False) ∧ (c = '[' → False)) :
    jsonExtractLayer s = none := by
  unfold jsonExtractLayer
  cases hp : tryParseJsonSafe s with
  | none => rfl
  | some v =>
      dsimp only
      rw [tryParseJsonSafe_not_obj_of_charset hcs v hp]
      rfl

theorem jsonExtractLayer_none_of_token {s : String}
    (htok : ∀ c ∈ s.data, isTokenChar c = true) : jsonExtractLayer s = none :=
  jsonExtractLayer_none_of_charset (fun c hc =>
    ⟨(tokenChar_not_special (htok c hc)).1, (tokenChar_not_special (htok c hc)).2.2.1,
      (tokenChar_not_special (htok c hc)).2.2.2.1⟩)

theorem jsonExtractLayer_none_of_b64 {s : String}
    (hcs : ∀ c ∈ s.data, isB64Char c = true) : jsonExtractLayer s = none :=
  jsonExtractLayer_none_of_charset (fun c hc =>
    ⟨(isB64Char_not_special (hcs c hc)).2.1, (isB64Char_not_special (hcs c hc)).2.2.1,
      (isB64Char_not_special (hcs c hc)).2.2.2⟩)

theorem takeWhile_eq_self_of_all {p : Char → Bool} {cs : List Char}
    (h : ∀ c ∈ cs, p c = true) : List.takeWhile p cs = cs := by
  induction cs with
  | nil => rfl
  | cons c rest ih =>
      rw [List.takeWhile_cons_of_pos (h c (by simp)),
        ih (fun x hx => h x (by simp [hx]))]

theorem extractFromString_token (X : String)
    (htok : ∀ c ∈ X.data, isTokenChar c = true)
    (hlen3 : 3 ≤ X.data.length) (hlen64 : X.data.length ≤ 64)
    (hb64 : looksLikeBase64 X = false) :
    extractFromString X = some X := by
  have htrim : jsTrim X = X :=
    jsTrim_eq_self_of_no_ws X (fun c hc => (tokenChar_not_special (htok c hc)).2.1)
  have hne : X ≠ "" := by
    intro h
    rw [h] at hlen3
    simp at hlen3
  have hft : firstTokenMatch X.data = some X := by
    cases hX : X.data with
    | nil => rw [hX] at hlen3; simp at hlen3
    | cons c rest =>
        rw [firstTokenMatch]
        have htw : List.takeWhile isTokenChar (c :: rest) = c :: rest :=
          takeWhile_eq_self_of_all (fun x hx => htok x (hX ▸ hx))
        rw [htw, if_pos (by rw [← hX]; exact hlen3),
          List.take_of_length_le (by rw [← hX]; exact hlen64), ← hX]
  unfold extractFromString
  rw [htrim, if_neg hne, jsonExtractLayer_none_of_token htok]
  dsimp only
  rw [show b64ExtractLayer X = none from by unfold b64ExtractLayer; rw [hb64]; rfl]
  dsimp only
  rw [hft]

theorem extractFromString_wrap (X : String)
    (htok : ∀ c ∈ X.data, isTokenChar c = true) (hne : X ≠ "") :
    extractFromString (wrapTicketJson X) = some X := by
  have htrimX : jsTrim X = X :=
    jsTrim_eq_self_of_no_ws X (fun c hc => (tokenChar_not_special (htok c hc)).2.1)
  have hwtrim : jsTrim (wrapTicketJson X) = wrapTicketJson X :=
    jsTrim_eq_self_of_no_ws _ (wrap_no_ws htok)
  have hparse := tryParseJsonSafe_wrap X (fun c hc =>
    ⟨(tokenChar_not_special (htok c hc)).2.2.2.2.1,
      (tokenChar_not_special (htok c hc)).2.2.2.2.2⟩)
  have hjl : jsonExtractLayer (wrapTicketJson X) = some X := by
    unfold jsonExtractLayer
    rw [hparse]
    dsimp only
    rw [if_pos (show isObjTruthy (JsVal.vObj [("ticket_code", JsVal.vStr X)]) = true
      from rfl)]
    exact extractObj_ticket_code X hne htrimX
  unfold extractFromString
  rw [hwtrim, if_neg (wrap_ne_empty X), hjl]

theorem extractFromString_b64wrap (X : String)
    (htok : ∀ c ∈ X.data, isTokenChar c = true) (hne : X ≠ "") :
    extractFromString (b64Encode (wrapTicketJson X)) = some X := by
  have htrimX : jsTrim X = X :=
    jsTrim_eq_self_of_no_ws X (fun c hc => (tokenChar_not_special (htok c hc)).2.1)
  have hEchars : ∀ c ∈ (b64Encode (wrapTicketJson X)).data, isB64Char c = true :=
    b64EncodeBytes_all_b64 _
  have hEtrim : jsTrim (b64Encode (wrapTicketJson X)) = b64Encode (wrapTicketJson X) :=
    jsTrim_eq_self_of_no_ws _ (fun c hc => (isB64Char_not_special (hEchars c hc)).1)
  have hEne : b64Encode (wrapTicketJson X) ≠ "" := by
    intro h
    exact b64EncodeBytes_ne_nil
      (fun hb => wrap_data_ne_nil X (by simpa [strToBytes] using hb))
      (congrArg String.data h)
  have hdec : b64Decode (b64Encode (wrapTicketJson X)) = wrapTicketJson X :=
    b64Decode_b64Encode _ (wrap_ascii htok)
  have hparse := tryParseJsonSafe_wrap X (fun c hc =>
    ⟨(tokenChar_not_special (htok c hc)).2.2.2.2.1,
      (tokenChar_not_special (htok c hc)).2.2.2.2.2⟩)
  have hbl : b64ExtractLayer (b64Encode (wrapTicketJson X)) = some X := by
    unfold b64ExtractLayer
    rw [if_pos (looksLikeBase64_encode _ (wrap_data_ne_nil X)), hdec, hparse]
    dsimp only
    rw [if_pos (show isObjTruthy (JsVal.vObj [("ticket_code", JsVal.vStr X)]) = true
      from rfl), extractObj_ticket_code X hne htrimX]
  unfold extractFromString
  rw [hEtrim, if_neg hEne, jsonExtractLayer_none_of_b64 hEchars]
  dsimp only
  rw [hbl]

/-- C1 (amended): for a stored record whose `ticket_code` is a plain token
(`[A-Za-z0-9\-_\.]`, 3–64 characters, not base64-shaped) that is unique for
its key in its collection, with no earlier collection matching, the
`/validate` route resolves the bare code, the JSON text
`{"ticket_code": X}`, and the base64 encoding of that JSON text all to the
same stored record.  (The original claim, quantified over arbitrary codes,
fails: `resolver_round_trip_counterexample`.) -/
theorem resolver_round_trip (db : DB) (limit : Nat) (X : String) (d : Doc)
    (pre post : List String) (c : String)
    (hsplit : resolverCollections = pre ++ c :: post)
    (htok : ∀ ch ∈ X.data, isTokenChar ch = true)
    (hlen3 : 3 ≤ X.data.length) (hlen64 : X.data.length ≤ 64)
    (hb64 : looksLikeBase64 X = false)
    (hpre : ∀ c' ∈ pre, ∀ d' ∈ db c', docMatchesKey X (numKeyOf X) d' = false)
    (hmem : d ∈ db c)
    (htier1 : mongoFieldEq d "ticket_code" (.vStr X) = true)
    (huniq : ∀ d' ∈ db c, docMatchesKey X (numKeyOf X) d' = true → d' = d) :
    validateRoute db limit (some (.vStr X)) = .ok d c ∧
    validateRoute db limit (some (.vStr (wrapTicketJson X))) = .ok d c ∧
    validateRoute db limit (some (.vStr (b64Encode (wrapTicketJson X)))) = .ok d c := by
  have htrimX : jsTrim X = X :=
    jsTrim_eq_self_of_no_ws X (fun c hc => (tokenChar_not_special (htok c hc)).2.1)
  have hne : X ≠ "" := by
    intro h
    rw [h] at hlen3
    simp at hlen3
  have hlook : findTicketDetailed db X limit = some (d, c) := by
    unfold findTicketDetailed
    rw [htrimX, hsplit]
    exact searchCollections_append_found hpre
      (searchCollection_eq_some_unique hmem htier1 huniq)
  have hroute : ∀ p : String, extractFromString p = some X →
      validateRoute db limit (some (.vStr p)) = .ok d c := by
    intro p hp
    unfold validateRoute
    rw [show extractTicketId (some (.vStr p)) = extractFromString p from rfl, hp]
    dsimp only
    rw [if_neg hne, hlook]
  exact ⟨hroute X (extractFromString_token X htok hlen3 hlen64 hb64),
    hroute (wrapTicketJson X) (extractFromString_wrap X htok hne),
    hroute (b64Encode (wrapTicketJson X)) (extractFromString_b64wrap X htok hne)⟩

/-- Witness for C1: the generator-shaped code `"TICK-AB12CD"` resolves to its
record through all three payload forms. -/
theorem resolver_round_trip_witness :
    validateRoute witRoundTripDb defaultScanLimit (some (.vStr "TICK-AB12CD"))
        = .ok witRoundTripDoc "visitors" ∧
    validateRoute witRoundTripDb defaultScanLimit
        (some (.vStr (wrapTicketJson "TICK-AB12CD"))) = .ok witRoundTripDoc "visitors" ∧
    validateRoute witRoundTripDb defaultScanLimit
        (some (.vStr (b64Encode (wrapTicketJson "TICK-AB12CD"))))
        = .ok witRoundTripDoc "visitors" :=
  resolver_round_trip witRoundTripDb defaultScanLimit "TICK-AB12CD" witRoundTripDoc
    [] ["exhibitors", "partners", "speakers", "awardees"] "visitors"
    (by decide) (by decide) (by decide) (by decide) (by decide) (by decide)
    (by decide) (by decide) (by decide)

/-- Counterexample for C1 as written: the stored code `"MTIzNDU2"` is
well-formed base64 of `"123456"`, so the extractor rewrites the scanned bare
code before lookup and the record's own code resolves to 404 instead of the
record. -/
theorem resolver_round_trip_counterexample :
    cexB64Doc ∈ cexB64Db "visitors" ∧
    getField cexB64Doc "ticket_code" = some (.vStr "MTIzNDU2") ∧
    validateRoute cexB64Db defaultScanLimit (some (.vStr "MTIzNDU2")) = .notFound := by
  decide

/-! ## Document-algebra lemmas (claims C2, C5, C7) -/

theorem find?_append_of_none {α : Type} {p : α → Bool} {l1 l2 : List α}
    (h : l1.find? p = none) : (l1 ++ l2).find? p = l2.find? p := by
  induction l1 with
  | nil => rfl
  | cons a rest ih =>
      have ha : p a = false := by
        by_contra hc
        rw [List.find?_cons_of_pos _ (by simpa using hc)] at h
        cases h
      rw [List.find?_cons_of_neg _ (by simp [ha])] at h
      rw [List.cons_append, List.find?_cons_of_neg _ (by simp [ha]), ih h]

theorem find?_append_of_some {α : Type} {p : α → Bool} {l1 l2 : List α} {x : α}
    (h : l1.find? p = some x) : (l1 ++ l2).find? p = some x := by
  induction l1 with
  | nil => cases h
  | cons a rest ih =>
      by_cases ha : p a = true
      · rw [List.find?_cons_of_pos _ ha] at h
        rw [List.cons_append, List.find?_cons_of_pos _ ha]
        exact h
      · rw [List.find?_cons_of_neg _ (by simpa using ha)] at h
        rw [List.cons_append, List.find?_cons_of_neg _ (by simpa using ha)]
        exact ih h

theorem hasField_find?_none {d : Doc} {k : String} (h : hasField d k = false) :
    d.find? (fun p => p.1 == k) = none := by
  refine List.find?_eq_none.mpr (fun p hp hc => ?_)
  rw [show hasField d k = true from List.any_eq_true.mpr ⟨p, hp, hc⟩] at h
  cases h

theorem find?_map_setfield_same (k : String) (v : JsVal) (d : Doc)
    (h : hasField d k = true) :
    (d.map (fun p => if p.1 == k then (k, v) else p)).find? (fun p => p.1 == k)
      = some (k, v) := by
  induction d with
  | nil => cases h
  | cons p rest ih =>
      by_cases hp : (p.1 == k) = true
      · rw [List.map_cons, if_pos hp, List.find?_cons_of_pos _ (by simp)]
      · rw [List.map_cons, if_neg hp, List.find?_cons_of_neg _ (by simpa using hp)]
        exact ih (by simpa [hasField, hp] using h)

theorem find?_map_setfield_ne (k' k : String) (v : JsVal) (h : k' ≠ k) (d : Doc) :
    (d.map (fun p => if p.1 == k' then (k', v) else p)).find? (fun p => p.1 == k)
      = d.find? (fun p => p.1 == k) := by
  induction d with
  | nil => rfl
  | cons p rest ih =>
      rw [List.map_cons]
      by_cases hp : (p.1 == k') = true
      · have hpk : (p.1 == k) = false := by
          have hpe : p.1 = k' := by simpa using hp
          simp [hpe, h]
        rw [if_pos hp, List.find?_cons, List.find?_cons]
        rw [show (k' == k) = false from by simp [h], hpk]
        exact ih
      · rw [if_neg hp, List.find?_cons, List.find?_cons]
        cases p.1 == k with
        | true => rfl
        | false => exact ih

theorem getField_setField_same (d : Doc) (k : String) (v : JsVal) :
    getField (setField d k v) k = some v := by
  unfold setField
  by_cases h : hasField d k = true
  · rw [if_pos h]
    unfold getField
    rw [find?_map_setfield_same k v d h]
    rfl
  · rw [if_neg h]
    unfold getField
    rw [find?_append_of_none (hasField_find?_none (by simpa using h)),
      List.find?_cons_of_pos _ (by simp)]
    rfl

theorem getField_setField_ne (d : Doc) {k' k : String} (v : JsVal) (h : k' ≠ k) :
    getField (setField d k' v) k = getField d k := by
  unfold setField
  by_cases hh : hasField d k' = true
  · rw [if_pos hh]
    unfold getField
    rw [find?_map_setfield_ne k' k v h d]
  · rw [if_neg hh]
    unfold getField
    cases hg : d.find? (fun p => p.1 == k) with
    | some p => rw [find?_append_of_some hg]
    | none =>
        rw [find?_append_of_none hg, List.find?_cons]
        dsimp only
        rw [show (k' == k) = false from by simp [h]]
        rfl

theorem normEmailLoop_email {d : Doc} {e : String} {d2 : Doc} : ∀ {ks : List String},
    normEmailLoop d ks = (some e, d2) →
    getField d2 "email" = some (.vStr e) ∧
    ∀ k, k ≠ "email" → getField d2 k = getField d k := by
  intro ks
  induction ks with
  | nil =>
      intro h
      simp [normEmailLoop] at h
  | cons k0 ks ih =>
      intro h
      rw [normEmailLoop] at h
      cases hg : getField d k0 with
      | none =>
          rw [hg] at h
          exact ih h
      | some v =>
          rw [hg] at h
          cases v with
          | vStr s =>
              dsimp only at h
              by_cases hs : s ≠ ""
              · rw [if_pos hs] at h
                simp only [Prod.mk.injEq, Option.some.injEq] at h
                obtain ⟨rfl, rfl⟩ := h
                refine ⟨getField_setField_same .., fun k hk => ?_⟩
                exact getField_setField_ne _ _ (fun hh => hk hh.symm)
              · rw [if_neg hs] at h
                exact ih h
          | vNull => exact ih h
          | vBool b => exact ih h
          | vNum n => exact ih h
          | vObj fs => exact ih h
          | vArr es => exact ih h

theorem getField_buildBaseDoc_createdAt (t : Int) (role : Option String)
    (form : Doc) (w : Option (List String)) :
    getField (buildBaseDoc t role form w) "createdAt" = some (.vNum t) := by
  cases role with
  | none => exact getField_setField_same ..
  | some r =>
      show getField (setField _ "role" (.vStr r)) "createdAt" = some (.vNum t)
      rw [getField_setField_ne _ _ (by decide)]
      exact getField_setField_same ..

theorem getField_ensureCode_ne (gen : Nat → String) (i : Nat) (d : Doc) (k : String)
    (hk : k ≠ "ticket_code") : getField (ensureCode gen i d).1 k = getField d k := by
  unfold ensureCode
  split
  · rfl
  · exact getField_setField_ne _ _ (fun hh => hk hh.symm)

theorem dbGet_insert_self (db : MDb) (T : String) (docs : List Doc) :
    dbGet { dbSet db T docs with nextId := db.nextId + 1 } T = docs := by
  simp [dbGet, dbSet]

theorem getField_buildBaseDoc_updatedAt (t : Int) (role : Option String)
    (form : Doc) (w : Option (List String)) :
    getField (buildBaseDoc t role form w) "updatedAt" = some (.vNum t) := by
  cases role with
  | none =>
      show getField (setField _ "createdAt" (.vNum t)) "updatedAt" = some (.vNum t)
      rw [getField_setField_ne _ _ (by decide)]
      exact getField_setField_same ..
  | some r =>
      show getField (setField (setField _ "createdAt" (.vNum t)) "role" (.vStr r))
        "updatedAt" = some (.vNum t)
      rw [getField_setField_ne _ _ (by decide), getField_setField_ne _ _ (by decide)]
      exact getField_setField_same ..

theorem hasField_of_getField {d : Doc} {k : String} {v : JsVal}
    (h : getField d k = some v) : hasField d k = true := by
  unfold getField at h
  cases hf : d.find? (fun p => p.1 == k) with
  | none => rw [hf] at h; cases h
  | some p =>
      have hp := List.find?_some hf
      exact List.any_eq_true.mpr ⟨p, List.mem_of_find?_eq_some hf, hp⟩

/-- C2: the claimed idempotent resubmission is unreachable — a code bug.
The email-keyed upsert sends `updatedAt` in both `$setOnInsert` (the spread
of the base document, which always carries it) and `$set`; MongoDB rejects
such an update as `ConflictingUpdateOperators`, and the route catches only
the `E11000` duplicate-key code, so every save whose form normalizes to an
email errors out instead of returning `{insertedId, doc, existed}` — on the
first submission as much as on the resubmission. -/
theorem resubmission_upsert_conflict (gen : Nat → String) (t : Int) (db : MDb)
    (cn : String) (form : Doc) (af : Option (List String)) (e : String)
    (hcn : cn ≠ "")
    (he : (normEmailLoop (buildBaseDoc t (mapTargetCollection cn).2 form
        (af.map (fun names => names.filterMap safeFieldName))) emailCandidates).1
      = some e) :
    saveRegistration gen t db cn form af
      = .error "ConflictingUpdateOperators: updatedAt in both $setOnInsert and $set" := by
  rcases hn : normEmailLoop (buildBaseDoc t (mapTargetCollection cn).2 form
      (af.map (fun names => names.filterMap safeFieldName))) emailCandidates
    with ⟨emo, bd⟩
  rw [hn] at he
  dsimp only at he
  subst he
  obtain ⟨hbe, hbp⟩ := normEmailLoop_email hn
  rcases hsc : ensureCode gen 1 bd with ⟨sois2, gi2⟩
  have hg : getField sois2 "updatedAt" = some (.vNum t) := by
    rw [show sois2 = (ensureCode gen 1 bd).1 from by rw [hsc],
      getField_ensureCode_ne _ _ _ _ (by decide),
      hbp "updatedAt" (by decide), getField_buildBaseDoc_updatedAt]
  have hupd : hasField sois2 "updatedAt" = true := hasField_of_getField hg
  unfold saveRegistration
  rw [if_neg hcn]
  unfold saveRegistrationCore
  rw [hn]
  dsimp only
  rw [show (6 : Nat) = 5 + 1 from rfl, saveUpsertLoop, hsc]
  dsimp only
  rw [if_pos hupd]

theorem hasField_map_setfield (k' k : String) (v : JsVal) : ∀ d : Doc,
    hasField (d.map (fun p => if p.1 == k' then (k', v) else p)) k = hasField d k := by
  intro d
  induction d with
  | nil => rfl
  | cons p rest ih =>
      rw [List.map_cons]
      simp only [hasField, List.any_cons] at ih ⊢
      by_cases hp : (p.1 == k') = true
      · have hpe : p.1 = k' := by simpa using hp
        rw [if_pos hp, ih, hpe]
      · rw [if_neg hp, ih]

theorem hasField_setField (d : Doc) (k' k : String) (v : JsVal) :
    hasField (setField d k' v) k = ((k' == k) || hasField d k) := by
  unfold setField
  by_cases hh : hasField d k' = true
  · rw [if_pos hh, hasField_map_setfield]
    by_cases hk : (k' == k) = true
    · have : k' = k := by simpa using hk
      subst this
      rw [hk, Bool.true_or, hh]
    · rw [Bool.eq_false_iff.mpr hk, Bool.false_or]
  · rw [if_neg hh]
    unfold hasField
    rw [List.any_append]
    simp [Bool.or_comm]

theorem hasField_removeField_self (d : Doc) (k : String) :
    hasField (removeField d k) k = false := by
  unfold removeField hasField
  refine Bool.eq_false_iff.mpr (fun hc => ?_)
  obtain ⟨p, hp, hpk⟩ := List.any_eq_true.mp hc
  obtain ⟨hpmem, hpf⟩ := List.mem_filter.mp hp
  exact absurd (show p.1 = k from by simpa using hpk) (by simpa using hpf)

theorem hasField_removeField_true {d : Doc} {k' k : String}
    (h : hasField (removeField d k') k = true) : hasField d k = true := by
  unfold removeField hasField at h
  unfold hasField
  obtain ⟨p, hp, hpk⟩ := List.any_eq_true.mp h
  exact List.any_eq_true.mpr ⟨p, List.mem_of_mem_filter hp, hpk⟩

theorem hasField_filterWhitelistLoop {wl : List String} : ∀ {l acc : Doc} {k : String},
    hasField (filterWhitelistLoop wl l acc) k = true →
    wl.contains k = true ∨ hasField acc k = true := by
  intro l
  induction l with
  | nil => intro acc k h; exact Or.inr h
  | cons p rest ih =>
      intro acc k h
      obtain ⟨pk, pv⟩ := p
      rw [filterWhitelistLoop] at h
      by_cases hw : wl.contains pk = true
      · rw [if_pos hw] at h
        rcases ih h with hwl | hacc
        · exact Or.inl hwl
        · rw [hasField_setField] at hacc
          rcases Bool.or_eq_true_iff.mp hacc with hk | hacc2
          · have hpe : pk = k := by simpa using hk
            exact Or.inl (hpe ▸ hw)
          · exact Or.inr hacc2
      · rw [if_neg hw] at h
        exact ih h

theorem hasField_protect_true {ex U0 : Doc} {force : Bool} {k : String}
    (h : hasField (protectTicketCode ex force U0) k = true) : hasField U0 k = true := by
  unfold protectTicketCode at h
  split at h
  · split at h
    · exact hasField_removeField_true h
    · split at h
      · exact hasField_removeField_true h
      · exact h
  · exact h

theorem hasField_normalizeSlots_ne (U : Doc) (k : String) (hk : k ≠ "slots") :
    hasField (normalizeSlots U) k = hasField U k := by
  unfold normalizeSlots
  cases hg : getField U "slots" with
  | none => rfl
  | some v =>
      cases v with
      | vStr s =>
          dsimp only
          cases hp : tryParseJsonSafe s with
          | none => rfl
          | some v2 =>
              dsimp only
              rw [hasField_setField,
                show ("slots" == k) = false from
                  Bool.eq_false_iff.mpr
                    (fun hc => hk (show ("slots" : String) = k from by simpa using hc).symm),
                Bool.false_or]
      | vNull => rfl
      | vBool b => rfl
      | vNum n => rfl
      | vObj fs => rfl
      | vArr es => rfl

theorem getField_applySet_ne (d upd : Doc) (k : String)
    (h : hasField upd k = false) : getField (applySet d upd) k = getField d k := by
  induction upd generalizing d with
  | nil => rfl
  | cons p rest ih =>
      simp only [hasField, List.any_cons, Bool.or_eq_false_iff] at h
      obtain ⟨hk, h2⟩ := h
      rw [show applySet d (p :: rest) = applySet (setField d p.1 p.2) rest from rfl,
        ih (setField d p.1 p.2) (by simpa [hasField] using h2),
        getField_setField_ne _ _ (by simpa using hk)]

theorem find?_updateFirst_of_found {p : Doc → Bool} {f : Doc → Doc} {l : List Doc}
    {x : Doc} (h : l.find? p = some x) (hfx : p (f x) = true) :
    (updateFirst p f l).find? p = some (f x) := by
  induction l with
  | nil => cases h
  | cons a rest ih =>
      by_cases ha : p a = true
      · rw [List.find?_cons_of_pos _ ha] at h
        injection h with h'
        subst h'
        rw [updateFirst, if_pos ha, List.find?_cons_of_pos _ hfx]
      · rw [List.find?_cons_of_neg _ (by simpa using ha)] at h
        rw [updateFirst, if_neg ha, List.find?_cons_of_neg _ (by simpa using ha)]
        exact ih h

theorem protect_drops_mismatched (ex U0 : Doc)
    (hcur : codeStrOf ex "ticket_code" ≠ "")
    (hdiff : codeStrOf U0 "ticket_code" ≠ codeStrOf ex "ticket_code") :
    hasField (protectTicketCode ex false U0) "ticket_code" = false := by
  unfold protectTicketCode
  by_cases hhf : hasField U0 "ticket_code" = true
  · rw [if_pos hhf]
    by_cases hin : (match getField U0 "ticket_code" with
        | some v => if jsTruthy v then jsTrim (jsToString v) else ""
        | none => "") = ""
    · rw [if_pos hin]
      exact hasField_removeField_self ..
    · rw [if_neg hin, if_pos ⟨hcur, by simp, hdiff⟩]
      exact hasField_removeField_self ..
  · rw [if_neg hhf]
    simpa using hhf

theorem dbGet_dbSet_self (db : MDb) (n : String) (docs : List Doc) :
    dbGet (dbSet db n docs) n = docs := by
  simp [dbGet, dbSet]

theorem dbGet_mod_ne (db : MDb) (n m : String) (docs : List Doc) (nid : Nat)
    (h : m ≠ n) :
    dbGet { dbSet db n docs with nextId := nid } m = dbGet db m := by
  simp [dbGet, dbSet, h]

/-- Witness for C2: saving a form with an email errors with the operator
conflict. -/
theorem resubmission_upsert_conflict_witness :
    saveRegistration witGen 10 witSaveDb "visitors" witSaveForm none
      = .error "ConflictingUpdateOperators: updatedAt in both $setOnInsert and $set" :=
  resubmission_upsert_conflict witGen 10 witSaveDb "visitors" witSaveForm none
    "ana@example.com" (by decide) (by decide)

/-- C5 (amended): against an existing speaker whose stored `ticket_code` has
a nonempty trimmed string form, a confirm call without the override flag
whose whitelisted payload carries a ticket code with a *different trimmed
string form* leaves the stored `ticket_code` unchanged: the incoming code is
dropped from the update while the rest of the update still applies.  (The
original claim, for every incoming `Y ≠ X`, fails when `Y` trims to `X`:
`ticket_code_protected_counterexample`.) -/
theorem ticket_code_protected (db : MDb) (t : Int) (oid : JsVal) (payload ex : Doc)
    (hfind : (dbGet db "speakers").find? (fun d => getField d "_id" == some oid)
      = some ex)
    (hforce : jsTruthyOpt (getField payload "force") = false)
    (hcur : codeStrOf ex "ticket_code" ≠ "")
    (hdiff : codeStrOf (filterWhitelistLoop speakersConfirmWhitelist
        (removeField payload "force") []) "ticket_code" ≠ codeStrOf ex "ticket_code") :
    ∃ after noCh db2,
      speakersConfirm db t oid payload = (.okUpdated after noCh, db2) ∧
      getField after "ticket_code" = getField ex "ticket_code" := by
  obtain ⟨U0, hU0⟩ : ∃ x : Doc, x = filterWhitelistLoop speakersConfirmWhitelist
      (removeField payload "force") [] := ⟨_, rfl⟩
  rw [← hU0] at hdiff
  obtain ⟨U2, hU2⟩ : ∃ x : Doc, x = normalizeSlots (protectTicketCode ex false U0)
    := ⟨_, rfl⟩
  have htc2 : hasField U2 "ticket_code" = false := by
    rw [hU2, hasField_normalizeSlots_ne _ _ (by decide)]
    exact protect_drops_mismatched ex U0 hcur hdiff
  have hid2 : hasField U2 "_id" = false := by
    refine Bool.eq_false_iff.mpr (fun hc => ?_)
    rw [hU2, hasField_normalizeSlots_ne _ _ (by decide)] at hc
    have h0 := hasField_filterWhitelistLoop (hU0 ▸ hasField_protect_true hc)
    rcases h0 with hwl | hacc
    · exact absurd hwl (by decide)
    · exact absurd hacc (by decide)
  unfold speakersConfirm
  rw [hfind]
  dsimp only
  rw [hforce, ← hU0, ← hU2]
  unfold confirmApply
  by_cases hemp : U2 = []
  · rw [if_pos hemp]
    exact ⟨ex, true, db, rfl, rfl⟩
  · rw [if_neg hemp]
    dsimp only
    have hfu : hasField (setField U2 "updated_at" (.vNum t)) "ticket_code" = false := by
      rw [hasField_setField, htc2]
      rfl
    have hfid : hasField (setField U2 "updated_at" (.vNum t)) "_id" = false := by
      rw [hasField_setField, hid2]
      rfl
    have hpf : (fun d => getField d "_id" == some oid)
        (applySet ex (setField U2 "updated_at" (.vNum t))) = true := by
      dsimp only
      rw [getField_applySet_ne _ _ _ hfid]
      have h3 := List.find?_some hfind
      exact h3
    rw [find?_updateFirst_of_found hfind hpf]
    refine ⟨applySet ex (setField U2 "updated_at" (.vNum t)), false, _, rfl, ?_⟩
    rw [getField_applySet_ne _ _ _ hfu]

/-- Witness for C5: a payload carrying `"TICK-B"` against a stored
`"TICK-A"` updates the name but keeps the stored code. -/
theorem ticket_code_protected_witness :
    ∃ after noCh db2,
      speakersConfirm cexProtectDb 5 (.vNum 1)
          [("ticket_code", .vStr "TICK-B"), ("name", .vStr "Sam")]
        = (.okUpdated after noCh, db2) ∧
      getField after "ticket_code" = getField cexProtectDoc "ticket_code" :=
  ticket_code_protected cexProtectDb 5 (.vNum 1)
    [("ticket_code", .vStr "TICK-B"), ("name", .vStr "Sam")] cexProtectDoc
    (by decide) (by decide) (by decide) (by decide)

/-- Counterexample for C5 as written: the guard compares `String(v).trim()`
forms, so the incoming code `" TICK-A"` — different from the stored
`"TICK-A"` — passes the guard and is written verbatim, changing the stored
code. -/
theorem ticket_code_protected_counterexample :
    getField cexProtectDoc "ticket_code" = some (.vStr "TICK-A") ∧
    ((" TICK-A" : String) = "TICK-A" → False) ∧
    jsTruthyOpt (getField [("ticket_code", JsVal.vStr " TICK-A")] "force") = false ∧
    ∃ after db2,
      speakersConfirm cexProtectDb 5 (.vNum 1) [("ticket_code", .vStr " TICK-A")]
        = (.okUpdated after false, db2) ∧
      getField after "ticket_code" = some (.vStr " TICK-A") := by
  refine ⟨by decide, by decide, by decide,
    [("_id", .vNum 1), ("ticket_code", .vStr " TICK-A"), ("updated_at", .vNum 5)],
    (speakersConfirm cexProtectDb 5 (.vNum 1) [("ticket_code", .vStr " TICK-A")]).2,
    ?_, by decide⟩
  exact Prod.ext (by decide) rfl

/-- C7: with a positive amount the upgrade route only calls the payment
collaborator and returns its checkout URL — the store it hands back is the
input store, untouched; with amount 0 and a found entity whose resolved
ticket code is nonempty (and no colliding tickets record), the route answers
`upgraded` carrying that code and the stored entity's `ticket_category` is
set to the new category. -/
theorem upgrade_gating :
    (∀ (db : MDb) (t : Int) (gen : Nat → String) (url : String)
        (et eid nc : String) (amount : Int) (email : Option String),
      et ≠ "" → eid ≠ "" → nc ≠ "" → allowedEntities.contains et = true →
      0 < amount →
      upgradeRoute db t gen (some url) et eid nc amount email =
        (.checkout url, db,
          [.paymentCall amount ("Ticket Upgrade - " ++ nc) eid])) ∧
    (∀ (db : MDb) (t : Int) (gen : Nat → String) (pr : Option String)
        (et eid nc : String) (email : Option String) (row : Doc) (code : String),
      et ≠ "" → eid ≠ "" → nc ≠ "" → allowedEntities.contains et = true →
      (dbGet db et).find? (fun d => getField d "_id" == some (.vStr eid)) = some row →
      (match entityRowCode (some row) with | some c => c | none => gen 1) = code →
      code ≠ "" →
      (dbGet db "tickets").find? (fun d => mongoFieldEq d "ticket_code" (.vStr code))
        = none →
      ∃ after,
        (upgradeRoute db t gen pr et eid nc 0 email).1
          = .upgraded et eid nc (some code) ∧
        (dbGet (upgradeRoute db t gen pr et eid nc 0 email).2.1 et).find?
          (fun d => getField d "_id" == some (.vStr eid)) = some after ∧
        getField after "ticket_category" = some (.vStr nc)) := by
  constructor
  · intro db t gen url et eid nc amount email het heid hnc hallow hamt
    unfold upgradeRoute
    rw [if_neg (by simp [het, heid, hnc]), if_neg (not_not_intro hallow), if_pos hamt]
  · intro db t gen pr et eid nc email row code het heid hnc hallow hent hcode hcne htick
    have hetnt : et ≠ "tickets" := by
      have hmem : et ∈ allowedEntities := by simpa using hallow
      fin_cases hmem <;> decide
    rcases hres : upgradeRoute db t gen pr et eid nc 0 email with ⟨resp, db2, evs⟩
    unfold upgradeRoute at hres
    rw [if_neg (by simp [het, heid, hnc]), if_neg (not_not_intro hallow),
      if_neg (by simp)] at hres
    rw [hent] at hres
    rw [hcode] at hres
    unfold upgradeImmediate at hres
    dsimp only at hres
    rw [hent, htick] at hres
    dsimp only at hres
    rw [show getField (setField (setField (applySet
          [("ticket_code", JsVal.vStr code), ("createdAt", JsVal.vNum t)]
          (upgradeTicketSetFields t et eid nc (entityRowName (some row))
            (emailToUseOf email (some row)) (some row)))
        "ticket_code" (JsVal.vStr code)) "_id" (JsVal.vNum (db.nextId : Int)))
        "ticket_code" = some (JsVal.vStr code) from by
      rw [getField_setField_ne _ _ (by decide : ("_id" : String) ≠ "ticket_code")]
      exact getField_setField_same ..] at hres
    dsimp only [Option.elim] at hres
    rw [show jsToString (JsVal.vStr code) = code from rfl, if_neg hcne] at hres
    simp only [Prod.mk.injEq] at hres
    obtain ⟨hr, hd, he⟩ := hres
    subst hr hd he
    have h3 := List.find?_some hent
    have hpf : (fun d => getField d "_id" == some (JsVal.vStr eid))
        (applySet row [("ticket_category", .vStr nc), ("upgradedAt", .vNum t),
          ("ticket_code", .vStr code)]) = true := by
      dsimp only
      rw [getField_applySet_ne _ _ _ (by rfl)]
      exact h3
    refine ⟨applySet row [("ticket_category", .vStr nc), ("upgradedAt", .vNum t),
      ("ticket_code", .vStr code)], rfl, ?_, ?_⟩
    · dsimp only
      rw [dbGet_dbSet_self, dbGet_mod_ne _ _ _ _ _ hetnt,
        find?_updateFirst_of_found hent hpf]
    · rw [show applySet row [("ticket_category", JsVal.vStr nc),
          ("upgradedAt", JsVal.vNum t), ("ticket_code", JsVal.vStr code)]
          = setField (setField (setField row "ticket_category" (.vStr nc))
            "upgradedAt" (.vNum t)) "ticket_code" (.vStr code) from rfl,
        getField_setField_ne _ _ (by decide : ("ticket_code" : String) ≠ "ticket_category"),
        getField_setField_ne _ _ (by decide : ("upgradedAt" : String) ≠ "ticket_category")]
      exact getField_setField_same ..

/-- Witness for C7: both branches on a concrete speaker entity. -/
theorem upgrade_gating_witness :
    upgradeRoute witUpgradeDb 7 (fun _ => "TICK-G") (some "https://pay/1")
        "speakers" "42" "vip" 250 (some "sam@x.com") =
      (.checkout "https://pay/1", witUpgradeDb,
        [.paymentCall 250 ("Ticket Upgrade - " ++ "vip") "42"]) ∧
    ∃ after,
      (upgradeRoute witUpgradeDb 7 (fun _ => "TICK-G") none
          "speakers" "42" "vip" 0 (some "sam@x.com")).1
        = .upgraded "speakers" "42" "vip" (some "TICK-S1") ∧
      (dbGet (upgradeRoute witUpgradeDb 7 (fun _ => "TICK-G") none
          "speakers" "42" "vip" 0 (some "sam@x.com")).2.1 "speakers").find?
        (fun d => getField d "_id" == some (.vStr "42")) = some after ∧
      getField after "ticket_category" = some (.vStr "vip") :=
  ⟨upgrade_gating.1 witUpgradeDb 7 (fun _ => "TICK-G") "https://pay/1"
      "speakers" "42" "vip" 250 (some "sam@x.com")
      (by decide) (by decide) (by decide) (by decide) (by decide),
    upgrade_gating.2 witUpgradeDb 7 (fun _ => "TICK-G") none
      "speakers" "42" "vip" (some "sam@x.com") witUpgradeDoc "TICK-S1"
      (by decide) (by decide) (by decide) (by decide) (by decide) (by decide)
      (by decide) (by decide)⟩

/-- C10: a nonempty `entity_type` outside the five allowed role collections
is rejected with the 400 `entity_type not allowed` response; the store comes
back untouched and no payment call or email event is emitted, so no other
collection name is ever dereferenced through this endpoint. -/
theorem upgrade_entity_validation (db : MDb) (t : Int) (gen : Nat → String)
    (pr : Option String) (et eid nc : String) (amount : Int) (email : Option String)
    (h1 : et ≠ "") (h2 : eid ≠ "") (h3 : nc ≠ "")
    (h4 : allowedEntities.contains et = false) :
    upgradeRoute db t gen pr et eid nc amount email
      = (.badRequest "entity_type not allowed", db, []) := by
  unfold upgradeRoute
  rw [if_neg (by simp [h1, h2, h3]), if_pos (by rw [h4]; simp)]

/-- Witness for C10: the collection name `"admins"` is rejected. -/
theorem upgrade_entity_validation_witness :
    upgradeRoute witUpgradeDb 7 (fun _ => "TICK-G") none
        "admins" "42" "vip" 0 (some "sam@x.com")
      = (.badRequest "entity_type not allowed", witUpgradeDb, []) :=
  upgrade_entity_validation witUpgradeDb 7 (fun _ => "TICK-G") none
    "admins" "42" "vip" 0 (some "sam@x.com")
    (by decide) (by decide) (by decide) (by decide)

end TicketBackend
